import Mathlib

/-!
Shallow embedding of the sequence packer of `experiments/lib/pack.py` and of the
prompt-grouping / prompt-slicing logic of `experiments/lib/tokenize.py`.

Modelling conventions:
* Python `int` is `Int`; Python `float` is `ℚ` (exact arithmetic).
* The float `NaN` stored in the `logprobs` channel is modelled as `none` of
  `Option ℚ`; a token-logprob record's `logprob` field is `Option ℚ`
  (`none` is a missing / null value, `some v` a numeric value).
* Python exceptions (`AssertionError`, `IndexError`, `ZeroDivisionError`) are
  modelled with `Except String`.
* `random.randint(-2**63, 2**63 - 1)` draws are modelled by an explicit supply
  `gidf : Nat → Int` together with a counter of the draws made so far, so the
  packer is a deterministic function of its inputs and of the id supply.
* The auxiliary diagnostic fields of `TokenizedResult` (`conversation`,
  `chat_template`, `chat`, `tokens`) are omitted: the packer and
  `without_prompt` only copy or slice them and never read their contents.
-/

/-- One per-assistant-token log-probability record
(`openai...ChatCompletionTokenLogprob`): only the fields the packer reads. -/
structure TokenLogprob where
  token : String
  logprob : Option ℚ
  deriving Repr, DecidableEq

/-- `TokenizedResult` of `experiments/lib/tokenize.py` (token-level fields). -/
structure TokenizedResult where
  reward : ℚ
  advantage : ℚ
  deferred : Bool
  token_ids : List Int
  input_pos : List Int
  assistant_mask : List Int
  token_logprobs : Option (List TokenLogprob)
  prompt_id : Int
  prompt_length : Nat
  deriving Repr, DecidableEq

/-- Python's `l[i:]` slice for an `Int` index: a nonnegative start drops that
many elements; a negative start `-d` keeps the last `d` elements. -/
def pySliceFrom (l : List α) (i : Int) : List α :=
  if 0 ≤ i then l.drop i.toNat else l.drop (l.length - (-i).toNat)

/-- `TokenizedResult.without_prompt` (tokenize.py lines 29-49): strip the first
`prompt_length` tokens from every per-token channel, keep the trailing
`sum(assistant_mask)` log-probability records, and reset `prompt_length` to 0. -/
def TokenizedResult.without_prompt (r : TokenizedResult) : TokenizedResult :=
  let assistant_mask := r.assistant_mask.drop r.prompt_length
  { reward := r.reward
    advantage := r.advantage
    deferred := r.deferred
    token_ids := r.token_ids.drop r.prompt_length
    input_pos := r.input_pos.drop r.prompt_length
    assistant_mask := assistant_mask
    token_logprobs := r.token_logprobs.map
      (fun tl => pySliceFrom tl ((tl.length : Int) - assistant_mask.sum))
    prompt_id := r.prompt_id
    prompt_length := 0 }

/-- One open or closed packing row: the nine parallel per-token buffers. -/
structure Row where
  token_ids : List Int
  group_ids : List Int
  parent_ids : List Int
  input_pos : List Int
  assistant_mask : List Int
  logprobs : List (Option ℚ)
  advantages : List ℚ
  weights : List ℚ
  deferred : List Bool
  deriving Repr, DecidableEq

def emptyRow : Row :=
  { token_ids := [], group_ids := [], parent_ids := [], input_pos := []
    assistant_mask := [], logprobs := [], advantages := [], weights := []
    deferred := [] }

/-- `token_logprob.logprob or float("nan")` (pack.py line 107): a falsy
log-probability value (a null, or the number `0.0`) becomes NaN. -/
def orNaN (x : Option ℚ) : Option ℚ :=
  match x with
  | none => none
  | some v => if v = 0 then none else some v

/-- `[i for i, mask in enumerate(result.assistant_mask) if mask]`
(pack.py lines 97-99). -/
def assistantIndices (mask : List Int) : List Nat :=
  (List.range mask.length).filter (fun i => mask.getD i 0 != 0)

/-- pack.py lines 96-107 (inner part): overlay the trailing
`len(assistant_indices)` log-probability records onto the assistant-masked
positions of the just-appended span, after asserting that there are at least
as many records as assistant positions. `base` is the row's logprobs buffer
after the NaN initialisation, `offset` the start of the appended span. -/
def overlayLogprobs (base : List (Option ℚ)) (offset : Nat)
    (mask : List Int) (tl : List TokenLogprob) : Except String (List (Option ℚ)) :=
  let idxs := assistantIndices mask
  if idxs.length ≤ tl.length then
    Except.ok ((idxs.zip (pySliceFrom tl ((tl.length : Int) - idxs.length))).foldl
      (fun acc p => acc.set (p.1 + offset) (orNaN p.2.logprob)) base)
  else
    Except.error "AssertionError"

/-- The nine channel extensions of pack.py lines 86-113 for one effective
result `eff`, given the freshly drawn candidate group id `gid` and the
already-overlaid logprobs buffer `lps`. -/
def rawAppendRow (gid : Int) (cur : Row) (eff : TokenizedResult)
    (lps : List (Option ℚ)) : Row :=
  let n := eff.token_ids.length
  { token_ids := cur.token_ids ++ eff.token_ids
    group_ids := cur.group_ids ++
      (List.replicate eff.prompt_length eff.prompt_id ++
        List.replicate (n - eff.prompt_length) gid)
    parent_ids := cur.parent_ids ++ List.replicate n eff.prompt_id
    input_pos := cur.input_pos ++ eff.input_pos
    assistant_mask := cur.assistant_mask ++ eff.assistant_mask
    logprobs := lps
    advantages :=
      (cur.advantages ++ List.replicate n eff.advantage).set
        ((cur.advantages ++ List.replicate n eff.advantage).length - 1) 0
    weights := cur.weights ++ List.replicate n (1 / (eff.assistant_mask.sum : ℚ))
    deferred := cur.deferred ++ List.replicate n eff.deferred }

/-- pack.py lines 114-123: clip every channel of the row to `seq_len`. -/
def truncateRow (n : Nat) (row : Row) : Row :=
  { token_ids := row.token_ids.take n
    group_ids := row.group_ids.take n
    parent_ids := row.parent_ids.take n
    input_pos := row.input_pos.take n
    assistant_mask := row.assistant_mask.take n
    logprobs := row.logprobs.take n
    advantages := row.advantages.take n
    weights := row.weights.take n
    deferred := row.deferred.take n }

/-- pack.py lines 94-107: the row's logprobs buffer after the NaN
initialisation of the appended span and (`if result.token_logprobs:`, so only
for a non-null, non-empty record list) the assistant-position overlay. -/
def resolveLogprobs (cur : Row) (eff : TokenizedResult) :
    Except String (List (Option ℚ)) :=
  let logprobs0 := cur.logprobs ++ List.replicate eff.token_ids.length (none : Option ℚ)
  match eff.token_logprobs with
  | some tl =>
      if tl.isEmpty then Except.ok logprobs0
      else overlayLogprobs logprobs0 cur.logprobs.length eff.assistant_mask tl
  | none => Except.ok logprobs0

/-- pack.py lines 86-123: append the effective result `eff` to the row `cur`.
Fails like the Python code: `AssertionError` from the logprob overlay,
`IndexError` if `advantages[-1][-1] = 0` hits an empty row, and
`ZeroDivisionError` if the effective result has no assistant tokens. -/
def appendResult (seqLen : Nat) (truncate : Bool) (gid : Int)
    (cur : Row) (eff : TokenizedResult) : Except String Row :=
  let n := eff.token_ids.length
  Except.bind (resolveLogprobs cur eff) (fun lps =>
    if (cur.advantages ++ List.replicate n eff.advantage).isEmpty then
      Except.error "IndexError"
    else if eff.assistant_mask.sum = 0 then
      Except.error "ZeroDivisionError"
    else
      Except.ok (if truncate then truncateRow seqLen (rawAppendRow gid cur eff lps)
                 else rawAppendRow gid cur eff lps))

/-- The packer's loop state: the rows built so far, in reverse order (the head
is the currently open row, matching the Python `buffer[-1]` accesses), plus
the number of random group ids drawn so far. -/
structure PackState where
  rows : List Row
  draws : Nat
  deriving Repr

/-- One iteration of the `for result in tokenized_results` loop
(pack.py lines 57-123). -/
def packStep (seqLen : Nat) (truncate : Bool) (gidf : Nat → Int)
    (s : PackState) (result : TokenizedResult) : Except String PackState :=
  if seqLen < result.token_ids.length ∧ truncate = false then Except.ok s
  else
    let result_without_prompt := result.without_prompt
    if result.assistant_mask.sum = 0 then Except.ok s
    else
      match s.rows with
      | [] => Except.error "IndexError"
      | cur :: done =>
        let effLen := if result.prompt_id ∈ cur.group_ids
                      then result_without_prompt.token_ids.length
                      else result.token_ids.length
        let p := if seqLen < cur.token_ids.length + effLen
                 then (emptyRow, cur :: done) else (cur, done)
        let eff := if result.prompt_id ∈ p.1.group_ids then result_without_prompt
                   else result
        Except.map (fun row => { rows := row :: p.2, draws := s.draws + 1 })
          (appendResult seqLen truncate (gidf s.draws) p.1 eff)

/-- pack.py lines 47-123: run the packing loop, returning the rows in order.
The loop starts with a single empty open row. -/
def packRows (results : List TokenizedResult) (seqLen : Nat) (truncate : Bool)
    (gidf : Nat → Int) : Except String (List Row) :=
  Except.map (fun s => s.rows.reverse)
    (List.foldlM (packStep seqLen truncate gidf) { rows := [emptyRow], draws := 0 } results)

/-- The `pad` helper of pack.py lines 125-129: right-pad to `n` entries (a row
already at least that long is left unchanged). -/
def padTo (n : Nat) (pad : α) (l : List α) : List α :=
  l ++ List.replicate (n - l.length) pad

/-- The packer's output: nine channels, each a list of rows. -/
structure PackedTensors where
  tokens : List (List Int)
  group_ids : List (List Int)
  parent_ids : List (List Int)
  input_pos : List (List Int)
  assistant_mask : List (List Bool)
  logprobs : List (List (Option ℚ))
  advantages : List (List ℚ)
  weights : List (List ℚ)
  deferred : List (List Bool)
  deriving Repr, DecidableEq

/-- `torch.where(assistant_mask_tensor, weights_tensor, zeros)` (lines 133-135). -/
def whereMask (mb : List (List Bool)) (w : List (List ℚ)) : List (List ℚ) :=
  List.zipWith
    (fun mrow wrow => List.zipWith (fun b x => if b then x else 0) mrow wrow) mb w

/-- The values of one weights row at its assistant-masked positions. -/
def selRow (mrow : List Bool) (wrow : List ℚ) : List ℚ :=
  (mrow.zip wrow).filterMap (fun p => if p.1 then some p.2 else none)

/-- `weights_tensor[assistant_mask_tensor]`: the masked weight values of the
whole batch, row by row. -/
def selectMasked (mb : List (List Bool)) (w : List (List ℚ)) : List ℚ :=
  (List.zipWith selRow mb w).flatten

/-- pack.py lines 136-138: divide every assistant-masked weight by the mean of
the masked weights. An empty selection (no assistant tokens at all) leaves the
tensor unchanged, as the in-place torch op on an empty selection does. -/
def normalizeWeights (mb : List (List Bool)) (w : List (List ℚ)) : List (List ℚ) :=
  let sel := selectMasked mb w
  if sel.isEmpty then w
  else
    List.zipWith
      (fun mrow wrow =>
        List.zipWith (fun b x => if b then x / (sel.sum / (sel.length : ℚ)) else x)
          mrow wrow) mb w

/-- pack.py lines 125-150: pad every channel with its sentinel, convert the
assistant mask to booleans, zero the weights outside the mask and normalize
the masked weights. -/
def finalizeRows (rows : List Row) (seqLen : Nat) (padTokenId : Int) :
    PackedTensors :=
  let mb := rows.map (fun r => (padTo seqLen 0 r.assistant_mask).map (fun m => m != 0))
  let w2 := whereMask mb (rows.map (fun r => padTo seqLen (0 : ℚ) r.weights))
  { tokens := rows.map (fun r => padTo seqLen padTokenId r.token_ids)
    group_ids := rows.map (fun r => padTo seqLen (-1 : Int) r.group_ids)
    parent_ids := rows.map (fun r => padTo seqLen (-1 : Int) r.parent_ids)
    input_pos := rows.map (fun r => padTo seqLen (0 : Int) r.input_pos)
    assistant_mask := mb
    logprobs := rows.map (fun r => padTo seqLen (none : Option ℚ) r.logprobs)
    advantages := rows.map (fun r => padTo seqLen (0 : ℚ) r.advantages)
    weights := normalizeWeights mb w2
    deferred := rows.map (fun r => padTo seqLen false r.deferred) }

/-- `packed_tensors_from_tokenized_results` (pack.py lines 41-150). -/
def packed_tensors_from_tokenized_results (results : List TokenizedResult)
    (seqLen : Nat) (padTokenId : Int) (truncate : Bool) (gidf : Nat → Int) :
    Except String PackedTensors :=
  Except.map (fun rows => finalizeRows rows seqLen padTokenId)
    (packRows results seqLen truncate gidf)

/-- Python `zip(*tss)`: the list of columns, cut off at the shortest list.
`zip()` of no lists is empty. -/
def transposeMin (tss : List (List Int)) : List (List Int) :=
  if h : tss.isEmpty || tss.any List.isEmpty then []
  else (tss.map (fun ts => ts.headD 0)) :: transposeMin (tss.map List.tail)
  termination_by (tss.headD []).length
  decreasing_by
    simp only [Bool.or_eq_true, List.isEmpty_iff, List.any_eq_true, not_or,
      not_exists, not_and] at h
    obtain ⟨h1, h2⟩ := h
    cases tss with
    | nil => exact absurd rfl h1
    | cons ts rest =>
      have hts : ts ≠ [] := h2 ts (by simp)
      have hpos : 0 < ts.length := List.length_pos.mpr hts
      simp only [List.map_cons, List.headD_cons, List.length_tail]
      omega

/-- `len(set(x)) == 1` for a column tuple `x`: the column is non-empty and all
its entries are equal. -/
def allEq (col : List Int) : Bool :=
  match col with
  | [] => false
  | x :: xs => xs.all (fun y => y == x)

/-- tokenize.py lines 79-86:
`len(list(takewhile(lambda x: len(set(x)) == 1, zip(*(r.token_ids for r in tokenized_results)))))`. -/
def promptLengthOf (tss : List (List Int)) : Nat :=
  ((transposeMin tss).takeWhile allEq).length

/-- tokenize.py lines 78-92 (after the shuffle and per-choice tokenization):
assign the freshly drawn shared `prompt_id` and the common-prefix
`prompt_length` to every sibling, and zero out the first `prompt_length`
entries of every sibling's `assistant_mask` (the Python slice assignment
`mask[:pl] = [0] * pl`). -/
def assignPromptGroup (pid : Int) (rs : List TokenizedResult) :
    List TokenizedResult :=
  let pl := promptLengthOf (rs.map TokenizedResult.token_ids)
  rs.map (fun r =>
    { r with prompt_id := pid, prompt_length := pl,
             assistant_mask := List.replicate pl 0 ++ r.assistant_mask.drop pl })

/-- A stored tensor: its shape and its row-major data. -/
structure Tensor (α : Type) where
  shape : List Nat
  data : List α
  deriving Repr, DecidableEq

/-- The nine in-memory channel tensors, as the storage adapter sees them. -/
structure TensorDict where
  tokens : Tensor Int
  group_ids : Tensor Int
  parent_ids : Tensor Int
  input_pos : Tensor Int
  assistant_mask : Tensor Bool
  logprobs : Tensor (Option ℚ)
  advantages : Tensor ℚ
  weights : Tensor ℚ
  deferred : Tensor Bool
  deriving Repr, DecidableEq

/-- The directory of flat channel buffers, one `<channel>.pt` file each. -/
structure DiskStore where
  tokens : List Int
  group_ids : List Int
  parent_ids : List Int
  input_pos : List Int
  assistant_mask : List Bool
  logprobs : List (Option ℚ)
  advantages : List ℚ
  weights : List ℚ
  deferred : List Bool
  deriving Repr, DecidableEq

/-- The `DiskPackedTensors` descriptor (the directory path is not modelled). -/
structure DiskPackedTensors where
  num_sequences : Nat
  sequence_length : Nat
  deriving Repr, DecidableEq

/-- pack.py lines 156-165 for one channel:
`torch.from_file(..., size=num*seq*1).view(num, seq, -1).squeeze()`.
`from_file` reads exactly `num * seq` elements (none of the nine keys is
`"mask"`, so the extra factor is 1), the view makes the shape `(num, seq, 1)`
and `squeeze` drops every dimension of size 1. -/
def viewSqueeze (num seq : Nat) (file : List α) : Tensor α :=
  { shape := [num, seq, 1].filter (fun d => d != 1)
    data := file.take (num * seq * 1) }

/-- `packed_tensors_from_dir` (pack.py lines 153-177). -/
def packed_tensors_from_dir (store : DiskStore) (d : DiskPackedTensors) :
    TensorDict :=
  { tokens := viewSqueeze d.num_sequences d.sequence_length store.tokens
    group_ids := viewSqueeze d.num_sequences d.sequence_length store.group_ids
    parent_ids := viewSqueeze d.num_sequences d.sequence_length store.parent_ids
    input_pos := viewSqueeze d.num_sequences d.sequence_length store.input_pos
    assistant_mask := viewSqueeze d.num_sequences d.sequence_length store.assistant_mask
    logprobs := viewSqueeze d.num_sequences d.sequence_length store.logprobs
    advantages := viewSqueeze d.num_sequences d.sequence_length store.advantages
    weights := viewSqueeze d.num_sequences d.sequence_length store.weights
    deferred := viewSqueeze d.num_sequences d.sequence_length store.deferred }

/-- `packed_tensors_to_dir` (pack.py lines 180-189): build the descriptor from
`tokens.shape[0]` and `tokens.shape[1]`, then copy every in-memory channel's
values into the corresponding mapped buffer (`tensor.copy_`, element order
row-major). -/
def packed_tensors_to_dir (t : TensorDict) : DiskStore × DiskPackedTensors :=
  let d : DiskPackedTensors :=
    { num_sequences := t.tokens.shape.getD 0 0
      sequence_length := t.tokens.shape.getD 1 0 }
  ({ tokens := t.tokens.data
     group_ids := t.group_ids.data
     parent_ids := t.parent_ids.data
     input_pos := t.input_pos.data
     assistant_mask := t.assistant_mask.data
     logprobs := t.logprobs.data
     advantages := t.advantages.data
     weights := t.weights.data
     deferred := t.deferred.data }, d)

/-- The structural well-formedness of a `TokenizedResult` stated in spec §3:
the three per-token channels have equal length, `prompt_length` counts leading
tokens, and `assistant_mask` entries are 0/1 flags. -/
def WFResult (r : TokenizedResult) : Prop :=
  r.input_pos.length = r.token_ids.length ∧
  r.assistant_mask.length = r.token_ids.length ∧
  r.prompt_length ≤ r.token_ids.length ∧
  ∀ m ∈ r.assistant_mask, m = 0 ∨ m = 1

instance (r : TokenizedResult) : Decidable (WFResult r) := by
  unfold WFResult; infer_instance

/-- All nine buffers of a row have the same length. -/
def RowAligned (row : Row) : Prop :=
  row.group_ids.length = row.token_ids.length ∧
  row.parent_ids.length = row.token_ids.length ∧
  row.input_pos.length = row.token_ids.length ∧
  row.assistant_mask.length = row.token_ids.length ∧
  row.logprobs.length = row.token_ids.length ∧
  row.advantages.length = row.token_ids.length ∧
  row.weights.length = row.token_ids.length ∧
  row.deferred.length = row.token_ids.length

/-- The packing-loop row invariant: aligned buffers, content no longer than
`seqLen`, and a positive weight at every assistant-masked position. -/
def RowInv (seqLen : Nat) (row : Row) : Prop :=
  RowAligned row ∧ row.token_ids.length ≤ seqLen ∧
  ∀ (i : Nat) (m : Int), row.assistant_mask[i]? = some m → m ≠ 0 →
    ∃ w : ℚ, row.weights[i]? = some w ∧ 0 < w

/-- The row's trailing advantage is zero (or the row is empty). -/
def RowAdvLastZero (row : Row) : Prop :=
  row.advantages = [] ∨ row.advantages.getLast? = some 0

/-- Spec-side predicate for claim C8: in each of the first `k` columns, every
sibling token list has the same token id (in particular each is that long). -/
def agreeCols (tss : List (List Int)) (k : Nat) : Prop :=
  ∀ j < k, ∃ t, ∀ ts ∈ tss, ts[j]? = some t

/-! ### Generic helper lemmas -/

theorem exceptMap_ok_elim {α β : Type} {f : α → β} {e : Except String α} {b : β}
    (h : Except.map f e = Except.ok b) : ∃ a, e = Except.ok a ∧ b = f a := by
  cases e with
  | error e' => simp [Except.map] at h
  | ok a =>
    simp only [Except.map, Except.ok.injEq] at h
    exact ⟨a, rfl, h.symm⟩

theorem foldExceptInv {σ α : Type} (f : σ → α → Except String σ) (P : σ → Prop) :
    ∀ (l : List α) (s₀ s₁ : σ),
      (∀ s a s', a ∈ l → P s → f s a = Except.ok s' → P s') →
      P s₀ → List.foldlM f s₀ l = Except.ok s₁ → P s₁ := by
  intro l
  induction l with
  | nil =>
    intro s₀ s₁ _ h0 hfold
    simp only [List.foldlM_nil] at hfold
    cases hfold
    exact h0
  | cons a t ih =>
    intro s₀ s₁ hstep h0 hfold
    rw [List.foldlM_cons] at hfold
    cases hfa : f s₀ a with
    | error e =>
      rw [hfa] at hfold
      simp [Bind.bind, Except.bind] at hfold
    | ok s' =>
      rw [hfa] at hfold
      simp only [Bind.bind, Except.bind] at hfold
      exact ih s' s₁ (fun s b s'' hb => hstep s b s'' (List.mem_cons_of_mem _ hb))
        (hstep s₀ a s' (List.mem_cons_self _ _) h0 hfa) hfold

theorem padTo_length {n : Nat} {p : α} {l : List α} (h : l.length ≤ n) :
    (padTo n p l).length = n := by
  simp only [padTo, List.length_append, List.length_replicate]
  omega

theorem padTo_getElem?_lt {n : Nat} {p : α} {l : List α} {i : Nat}
    (h : i < l.length) : (padTo n p l)[i]? = l[i]? :=
  List.getElem?_append_left h

theorem padTo_getElem?_pad {n : Nat} {p : α} {l : List α} {i : Nat}
    (h1 : l.length ≤ i) (h2 : i < n) : (padTo n p l)[i]? = some p := by
  rw [padTo, List.getElem?_append_right h1, List.getElem?_replicate, if_pos (by omega)]

theorem pySliceFrom_subset {l : List α} {i : Int} : ∀ x ∈ pySliceFrom l i, x ∈ l := by
  unfold pySliceFrom
  split <;> exact fun x h => List.mem_of_mem_drop h

/-! ### Lemmas about the logprob overlay -/

theorem foldl_set_length (pairs : List (Nat × TokenLogprob)) (offset : Nat) :
    ∀ base : List (Option ℚ),
      (pairs.foldl (fun acc p => acc.set (p.1 + offset) (orNaN p.2.logprob)) base).length
        = base.length := by
  induction pairs with
  | nil => intro base; rfl
  | cons p t ih =>
    intro base
    rw [List.foldl_cons, ih, List.length_set]

theorem foldl_set_none (pairs : List (Nat × TokenLogprob)) (offset : Nat) :
    ∀ base : List (Option ℚ), (∀ x ∈ base, x = none) →
      (∀ p ∈ pairs, orNaN p.2.logprob = none) →
      ∀ x ∈ pairs.foldl (fun acc p => acc.set (p.1 + offset) (orNaN p.2.logprob)) base,
        x = none := by
  induction pairs with
  | nil => exact fun base hb _ x hx => hb x hx
  | cons p t ih =>
    intro base hb hv x hx
    refine ih _ ?_ (fun q hq => hv q (List.mem_cons_of_mem _ hq)) x hx
    intro y hy
    rcases List.mem_or_eq_of_mem_set hy with h | h
    · exact hb y h
    · rw [h, hv p (List.mem_cons_self _ _)]

theorem overlayLogprobs_length {base : List (Option ℚ)} {offset : Nat}
    {mask : List Int} {tl : List TokenLogprob} {lps : List (Option ℚ)}
    (h : overlayLogprobs base offset mask tl = Except.ok lps) :
    lps.length = base.length := by
  simp only [overlayLogprobs] at h
  split at h
  · cases h
    exact foldl_set_length _ _ _
  · cases h

theorem overlayLogprobs_none {base : List (Option ℚ)} {offset : Nat}
    {mask : List Int} {tl : List TokenLogprob} {lps : List (Option ℚ)}
    (hb : ∀ x ∈ base, x = none) (hv : ∀ lp ∈ tl, orNaN lp.logprob = none)
    (h : overlayLogprobs base offset mask tl = Except.ok lps) :
    ∀ x ∈ lps, x = none := by
  simp only [overlayLogprobs] at h
  split at h
  · cases h
    refine foldl_set_none _ _ _ hb ?_
    intro p hp
    exact hv p.2 (pySliceFrom_subset _ (List.of_mem_zip hp).2)
  · cases h

theorem resolveLogprobs_length {cur : Row} {eff : TokenizedResult}
    {lps : List (Option ℚ)} (h : resolveLogprobs cur eff = Except.ok lps) :
    lps.length = cur.logprobs.length + eff.token_ids.length := by
  simp only [resolveLogprobs] at h
  cases htl : eff.token_logprobs with
  | none =>
    rw [htl] at h
    cases h
    simp
  | some tl =>
    rw [htl] at h
    dsimp only at h
    by_cases he : tl.isEmpty
    · rw [if_pos he] at h
      cases h
      simp
    · rw [if_neg he] at h
      have := overlayLogprobs_length h
      simpa using this

theorem resolveLogprobs_none {cur : Row} {eff : TokenizedResult}
    {lps : List (Option ℚ)} (hcur : ∀ x ∈ cur.logprobs, x = none)
    (hfalsy : ∀ tl, eff.token_logprobs = some tl → ∀ lp ∈ tl, orNaN lp.logprob = none)
    (h : resolveLogprobs cur eff = Except.ok lps) : ∀ x ∈ lps, x = none := by
  have hbase : ∀ x ∈ cur.logprobs ++
      List.replicate eff.token_ids.length (none : Option ℚ), x = none := by
    intro x hx
    rcases List.mem_append.mp hx with h' | h'
    · exact hcur x h'
    · exact List.eq_of_mem_replicate h'
  simp only [resolveLogprobs] at h
  cases htl : eff.token_logprobs with
  | none =>
    rw [htl] at h
    cases h
    exact hbase
  | some tl =>
    rw [htl] at h
    dsimp only at h
    by_cases he : tl.isEmpty
    · rw [if_pos he] at h
      cases h
      exact hbase
    · rw [if_neg he] at h
      exact overlayLogprobs_none hbase (hfalsy tl htl) h

theorem appendResult_ok_elim {seqLen : Nat} {truncate : Bool} {gid : Int}
    {cur : Row} {eff : TokenizedResult} {row : Row}
    (h : appendResult seqLen truncate gid cur eff = Except.ok row) :
    ∃ lps, resolveLogprobs cur eff = Except.ok lps ∧
      cur.advantages ++ List.replicate eff.token_ids.length eff.advantage ≠ [] ∧
      eff.assistant_mask.sum ≠ 0 ∧
      row = (if truncate then truncateRow seqLen (rawAppendRow gid cur eff lps)
             else rawAppendRow gid cur eff lps) := by
  simp only [appendResult] at h
  cases hr : resolveLogprobs cur eff with
  | error e =>
    rw [hr] at h
    simp [Except.bind] at h
  | ok lps =>
    rw [hr] at h
    simp only [Except.bind] at h
    split at h
    · cases h
    · split at h
      · cases h
      · cases h
        refine ⟨lps, rfl, ?_, by assumption, rfl⟩
        simp_all [List.isEmpty_iff]

/-! ### Invariant preservation through the packing loop -/

theorem wf_without_prompt {r : TokenizedResult} (h : WFResult r) :
    WFResult r.without_prompt := by
  obtain ⟨h1, h2, h3, h4⟩ := h
  refine ⟨?_, ?_, ?_, ?_⟩
  · simp [TokenizedResult.without_prompt, List.length_drop, h1, h2]
  · simp [TokenizedResult.without_prompt, List.length_drop, h1, h2]
  · simp [TokenizedResult.without_prompt]
  · intro m hm
    exact h4 m (List.mem_of_mem_drop
      (by simpa [TokenizedResult.without_prompt] using hm))

theorem without_prompt_len_le (r : TokenizedResult) :
    r.without_prompt.token_ids.length ≤ r.token_ids.length := by
  simp [TokenizedResult.without_prompt, List.length_drop]

theorem emptyRow_inv (seqLen : Nat) : RowInv seqLen emptyRow := by
  refine ⟨⟨rfl, rfl, rfl, rfl, rfl, rfl, rfl, rfl⟩, by simp [emptyRow], ?_⟩
  intro i m hm
  simp [emptyRow] at hm

theorem rawAppendRow_aligned {gid : Int} {cur : Row} {eff : TokenizedResult}
    {lps : List (Option ℚ)} (hcur : RowAligned cur) (heff : WFResult eff)
    (hlps : lps.length = cur.logprobs.length + eff.token_ids.length) :
    RowAligned (rawAppendRow gid cur eff lps) ∧
    (rawAppendRow gid cur eff lps).token_ids.length
      = cur.token_ids.length + eff.token_ids.length := by
  obtain ⟨g, p, ip, am, lp, ad, w, d⟩ := hcur
  obtain ⟨e1, e2, e3, e4⟩ := heff
  constructor
  · refine ⟨?_, ?_, ?_, ?_, ?_, ?_, ?_, ?_⟩ <;>
      simp only [rawAppendRow, List.length_append, List.length_replicate,
        List.length_set, g, p, ip, am, lp, ad, w, d, hlps, e1, e2] <;>
      omega
  · simp [rawAppendRow, List.length_append]

theorem rawAppendRow_wpos {gid : Int} {cur : Row} {eff : TokenizedResult}
    {lps : List (Option ℚ)}
    (ham : cur.assistant_mask.length = cur.token_ids.length)
    (hwl : cur.weights.length = cur.token_ids.length)
    (hcurw : ∀ (i : Nat) (m : Int), cur.assistant_mask[i]? = some m → m ≠ 0 →
      ∃ w : ℚ, cur.weights[i]? = some w ∧ 0 < w)
    (heffm : eff.assistant_mask.length = eff.token_ids.length)
    (hbin : ∀ m ∈ eff.assistant_mask, m = 0 ∨ m = 1)
    (hsum : eff.assistant_mask.sum ≠ 0) :
    ∀ (i : Nat) (m : Int),
      (rawAppendRow gid cur eff lps).assistant_mask[i]? = some m → m ≠ 0 →
      ∃ w : ℚ, (rawAppendRow gid cur eff lps).weights[i]? = some w ∧ 0 < w := by
  intro i m hm hm0
  have hs0 : (0 : Int) ≤ eff.assistant_mask.sum :=
    List.sum_nonneg (fun x hx => by rcases hbin x hx with h | h <;> simp [h])
  have hspos : (0 : Int) < eff.assistant_mask.sum := lt_of_le_of_ne hs0 (Ne.symm hsum)
  simp only [rawAppendRow] at hm ⊢
  by_cases hi : i < cur.assistant_mask.length
  · rw [List.getElem?_append_left hi] at hm
    obtain ⟨w, hw, hwpos⟩ := hcurw i m hm hm0
    exact ⟨w, by rw [List.getElem?_append_left (by omega)]; exact hw, hwpos⟩
  · push_neg at hi
    rw [List.getElem?_append_right hi] at hm
    have hidx : i - cur.assistant_mask.length < eff.assistant_mask.length := by
      by_contra hge
      push_neg at hge
      rw [List.getElem?_eq_none hge] at hm
      cases hm
    refine ⟨1 / (eff.assistant_mask.sum : ℚ), ?_, ?_⟩
    · rw [List.getElem?_append_right (by omega : cur.weights.length ≤ i),
        List.getElem?_replicate, if_pos (by omega)]
    · exact div_pos one_pos (by exact_mod_cast hspos)

theorem truncateRow_rowInv {seqLen : Nat} {row : Row} (ha : RowAligned row)
    (hw : ∀ (i : Nat) (m : Int), row.assistant_mask[i]? = some m → m ≠ 0 →
      ∃ w : ℚ, row.weights[i]? = some w ∧ 0 < w) :
    RowInv seqLen (truncateRow seqLen row) := by
  obtain ⟨g, p, ip, am, lp, ad, w, d⟩ := ha
  refine ⟨⟨?_, ?_, ?_, ?_, ?_, ?_, ?_, ?_⟩, ?_, ?_⟩ <;>
    try simp only [truncateRow, List.length_take, g, p, ip, am, lp, ad, w, d]
  · exact inf_le_left
  · intro i m hm hm0
    rw [List.getElem?_take] at hm
    by_cases hi : i < seqLen
    · rw [if_pos hi] at hm
      obtain ⟨wv, hwv, hwpos⟩ := hw i m hm hm0
      exact ⟨wv, by rw [List.getElem?_take, if_pos hi]; exact hwv, hwpos⟩
    · rw [if_neg hi] at hm
      cases hm

theorem appendResult_inv {seqLen : Nat} {truncate : Bool} {gid : Int}
    {cur : Row} {eff : TokenizedResult} {row : Row}
    (hcur : RowInv seqLen cur) (heff : WFResult eff)
    (hbound : truncate = false →
      cur.token_ids.length + eff.token_ids.length ≤ seqLen)
    (h : appendResult seqLen truncate gid cur eff = Except.ok row) :
    RowInv seqLen row := by
  obtain ⟨lps, hlps, hne, hsum, hrow⟩ := appendResult_ok_elim h
  have hlen := resolveLogprobs_length hlps
  obtain ⟨haligned, hbnd, hwpos⟩ := hcur
  obtain ⟨hraw, hrawlen⟩ := rawAppendRow_aligned haligned heff hlen
  have hmask : cur.assistant_mask.length = cur.token_ids.length := haligned.2.2.2.1
  have hwlen : cur.weights.length = cur.token_ids.length := haligned.2.2.2.2.2.2.1
  cases truncate with
  | true =>
    rw [hrow, if_pos rfl]
    exact truncateRow_rowInv hraw
      (rawAppendRow_wpos hmask hwlen hwpos heff.2.1 heff.2.2.2 hsum)
  | false =>
    rw [hrow, if_neg (by simp)]
    exact ⟨hraw, by rw [hrawlen]; exact hbound rfl,
      rawAppendRow_wpos hmask hwlen hwpos heff.2.1 heff.2.2.2 hsum⟩

theorem packStep_inv {seqLen : Nat} {truncate : Bool} {gidf : Nat → Int}
    {s : PackState} {result : TokenizedResult} {s' : PackState}
    (hwf : WFResult result)
    (hs : s.rows ≠ [] ∧ ∀ row ∈ s.rows, RowInv seqLen row)
    (h : packStep seqLen truncate gidf s result = Except.ok s') :
    s'.rows ≠ [] ∧ ∀ row ∈ s'.rows, RowInv seqLen row := by
  simp only [packStep] at h
  by_cases hskip1 : seqLen < result.token_ids.length ∧ truncate = false
  · rw [if_pos hskip1] at h
    cases h
    exact hs
  · rw [if_neg hskip1] at h
    by_cases hskip2 : result.assistant_mask.sum = 0
    · rw [if_pos hskip2] at h
      cases h
      exact hs
    · rw [if_neg hskip2] at h
      obtain ⟨hne, hinv⟩ := hs
      cases hrows : s.rows with
      | nil => exact absurd hrows hne
      | cons cur done =>
        rw [hrows] at h
        dsimp only at h
        have hcur : RowInv seqLen cur := hinv cur (by rw [hrows]; exact List.mem_cons_self _ _)
        have hdone : ∀ row ∈ done, RowInv seqLen row :=
          fun row hrow => hinv row (by rw [hrows]; exact List.mem_cons_of_mem _ hrow)
        have hres_le : truncate = false → result.token_ids.length ≤ seqLen := by
          intro ht
          by_contra hgt
          push_neg at hgt
          exact hskip1 ⟨hgt, ht⟩
        by_cases hm : result.prompt_id ∈ cur.group_ids
        · rw [if_pos hm] at h
          by_cases hflush :
              seqLen < cur.token_ids.length + result.without_prompt.token_ids.length
          · rw [if_pos hflush] at h
            dsimp only at h
            rw [if_neg (by simp [emptyRow])] at h
            obtain ⟨row, happ, hs'⟩ := exceptMap_ok_elim h
            have hrowinv : RowInv seqLen row :=
              appendResult_inv (emptyRow_inv seqLen) hwf
                (fun ht => by
                  simpa [emptyRow] using hres_le ht) happ
            rw [hs']
            refine ⟨by simp, ?_⟩
            intro r hr
            rcases List.mem_cons.mp hr with h' | h'
            · rw [h']; exact hrowinv
            · rcases List.mem_cons.mp h' with h'' | h''
              · rw [h'']; exact hcur
              · exact hdone r h''
          · rw [if_neg hflush] at h
            dsimp only at h
            rw [if_pos hm] at h
            push_neg at hflush
            obtain ⟨row, happ, hs'⟩ := exceptMap_ok_elim h
            have hrowinv : RowInv seqLen row :=
              appendResult_inv hcur (wf_without_prompt hwf) (fun _ => hflush) happ
            rw [hs']
            refine ⟨by simp, ?_⟩
            intro r hr
            rcases List.mem_cons.mp hr with h' | h'
            · rw [h']; exact hrowinv
            · exact hdone r h'
        · rw [if_neg hm] at h
          by_cases hflush : seqLen < cur.token_ids.length + result.token_ids.length
          · rw [if_pos hflush] at h
            dsimp only at h
            rw [if_neg (by simp [emptyRow])] at h
            obtain ⟨row, happ, hs'⟩ := exceptMap_ok_elim h
            have hrowinv : RowInv seqLen row :=
              appendResult_inv (emptyRow_inv seqLen) hwf
                (fun ht => by simpa [emptyRow] using hres_le ht) happ
            rw [hs']
            refine ⟨by simp, ?_⟩
            intro r hr
            rcases List.mem_cons.mp hr with h' | h'
            · rw [h']; exact hrowinv
            · rcases List.mem_cons.mp h' with h'' | h''
              · rw [h'']; exact hcur
              · exact hdone r h''
          · rw [if_neg hflush] at h
            dsimp only at h
            rw [if_neg hm] at h
            push_neg at hflush
            obtain ⟨row, happ, hs'⟩ := exceptMap_ok_elim h
            have hrowinv : RowInv seqLen row :=
              appendResult_inv hcur hwf (fun _ => hflush) happ
            rw [hs']
            refine ⟨by simp, ?_⟩
            intro r hr
            rcases List.mem_cons.mp hr with h' | h'
            · rw [h']; exact hrowinv
            · exact hdone r h'

theorem packRows_inv {results : List TokenizedResult} {seqLen : Nat}
    {truncate : Bool} {gidf : Nat → Int} {rows : List Row}
    (hwf : ∀ r ∈ results, WFResult r)
    (h : packRows results seqLen truncate gidf = Except.ok rows) :
    rows ≠ [] ∧ ∀ row ∈ rows, RowInv seqLen row := by
  obtain ⟨s, hfold, hrows⟩ := exceptMap_ok_elim h
  have hinv := foldExceptInv (packStep seqLen truncate gidf)
    (fun st => st.rows ≠ [] ∧ ∀ row ∈ st.rows, RowInv seqLen row) results _ s
    (fun st a st' ha hst hstep => packStep_inv (hwf a ha) hst hstep)
    ⟨by simp, by
      intro row hrow
      rcases List.mem_singleton.mp hrow with h'
      rw [h']
      exact emptyRow_inv seqLen⟩ hfold
  rw [hrows]
  exact ⟨by simp [hinv.1], fun row hrow => hinv.2 row (List.mem_reverse.mp hrow)⟩

/-! ### Weight-normalization lemmas -/

theorem selRow_scale (q : ℚ) : ∀ (mrow : List Bool) (wrow : List ℚ),
    selRow mrow (List.zipWith (fun b x => if b then x / q else x) mrow wrow)
      = (selRow mrow wrow).map (fun x => x / q) := by
  intro mrow
  induction mrow with
  | nil => intro wrow; rfl
  | cons b mt ih =>
    intro wrow
    cases wrow with
    | nil => rfl
    | cons y wt =>
      cases b with
      | false => simpa [selRow, List.zip_cons_cons, List.filterMap_cons] using ih wt
      | true => simpa [selRow, List.zip_cons_cons, List.filterMap_cons] using ih wt

theorem selRow_mem : ∀ (mrow : List Bool) (wrow : List ℚ) (x : ℚ),
    x ∈ selRow mrow wrow → ∃ i : Nat, mrow[i]? = some true ∧ wrow[i]? = some x := by
  intro mrow
  induction mrow with
  | nil => intro wrow x hx; simp [selRow] at hx
  | cons b mt ih =>
    intro wrow x hx
    cases wrow with
    | nil => simp [selRow] at hx
    | cons y wt =>
      cases b with
      | false =>
        have hx' : x ∈ selRow mt wt := by
          simpa [selRow, List.zip_cons_cons, List.filterMap_cons] using hx
        obtain ⟨i, h1, h2⟩ := ih wt x hx'
        exact ⟨i + 1, by simpa using h1, by simpa using h2⟩
      | true =>
        have hx' : x = y ∨ x ∈ selRow mt wt := by
          simpa [selRow, List.zip_cons_cons, List.filterMap_cons] using hx
        rcases hx' with h | h
        · exact ⟨0, by simp, by simp [h]⟩
        · obtain ⟨i, h1, h2⟩ := ih wt x h
          exact ⟨i + 1, by simpa using h1, by simpa using h2⟩

theorem selectMasked_scale (q : ℚ) : ∀ (mb : List (List Bool)) (w : List (List ℚ)),
    selectMasked mb
        (List.zipWith
          (fun mrow wrow => List.zipWith (fun b x => if b then x / q else x) mrow wrow)
          mb w)
      = (selectMasked mb w).map (fun x => x / q) := by
  intro mb
  induction mb with
  | nil => intro w; rfl
  | cons mrow mt ih =>
    intro w
    cases w with
    | nil => rfl
    | cons wrow wt =>
      simp only [selectMasked, List.zipWith_cons_cons, List.flatten_cons,
        List.map_append] at ih ⊢
      rw [selRow_scale, ih wt]

theorem maskedMean_normalize {sel : List ℚ} (hpos : ∀ x ∈ sel, 0 < x)
    (hne : sel ≠ []) :
    (sel.map (fun x => x / (sel.sum / (sel.length : ℚ)))).sum
      / ((sel.map (fun x => x / (sel.sum / (sel.length : ℚ)))).length : ℚ) = 1 := by
  have hsum : 0 < sel.sum := List.sum_pos sel hpos hne
  have hn : 0 < (sel.length : ℚ) := by exact_mod_cast List.length_pos.mpr hne
  have hmap : (sel.map (fun x => x / (sel.sum / (sel.length : ℚ)))).sum
      = sel.sum * (sel.sum / (sel.length : ℚ))⁻¹ := by
    calc (sel.map (fun x => x / (sel.sum / (sel.length : ℚ)))).sum
        = (sel.map (fun x => x * (sel.sum / (sel.length : ℚ))⁻¹)).sum := by
          simp [div_eq_mul_inv]
      _ = (sel.map id).sum * (sel.sum / (sel.length : ℚ))⁻¹ :=
          List.sum_map_mul_right sel id _
      _ = sel.sum * (sel.sum / (sel.length : ℚ))⁻¹ := by simp
  rw [List.length_map, hmap, inv_div]
  field_simp

theorem zipWith_map_same {α β γ δ : Type} (f : β → γ → δ) (g : α → β) (h : α → γ)
    (l : List α) :
    List.zipWith f (l.map g) (l.map h) = l.map (fun a => f (g a) (h a)) := by
  rw [List.zipWith_map, List.zipWith_same]

theorem selRow_where_pos {seqLen : Nat} {row : Row} (hinv : RowInv seqLen row) :
    ∀ x ∈ selRow ((padTo seqLen (0 : Int) row.assistant_mask).map (fun m => m != 0))
        (List.zipWith (fun b y => if b then y else 0)
          ((padTo seqLen (0 : Int) row.assistant_mask).map (fun m => m != 0))
          (padTo seqLen (0 : ℚ) row.weights)), 0 < x := by
  obtain ⟨haligned, hbnd, hw⟩ := hinv
  intro x hx
  obtain ⟨i, hmi, hwi⟩ := selRow_mem _ _ _ hx
  rw [List.getElem?_map] at hmi
  cases hpi : (padTo seqLen (0 : Int) row.assistant_mask)[i]? with
  | none => rw [hpi] at hmi; cases hmi
  | some m =>
    rw [hpi] at hmi
    simp only [Option.map_some'] at hmi
    have hm0 : m ≠ 0 := by
      intro hc
      rw [hc] at hmi
      simp at hmi
    have hmlen : row.assistant_mask.length ≤ seqLen := by
      rw [haligned.2.2.2.1]; exact hbnd
    have hilt : i < row.assistant_mask.length := by
      by_contra hge
      push_neg at hge
      by_cases hi2 : i < seqLen
      · rw [padTo_getElem?_pad hge hi2] at hpi
        cases hpi
        exact hm0 rfl
      · push_neg at hi2
        rw [List.getElem?_eq_none (by rw [padTo_length hmlen]; exact hi2)] at hpi
        cases hpi
    have hmaski : row.assistant_mask[i]? = some m := by
      rw [← padTo_getElem?_lt hilt]
      exact hpi
    obtain ⟨w, hwv, hwpos⟩ := hw i m hmaski hm0
    have hiw : i < row.weights.length := by
      by_contra hge
      push_neg at hge
      rw [List.getElem?_eq_none hge] at hwv
      cases hwv
    have hpad_w : (padTo seqLen (0 : ℚ) row.weights)[i]? = some w := by
      rw [padTo_getElem?_lt hiw]
      exact hwv
    have hfirst : ((padTo seqLen (0 : Int) row.assistant_mask).map
        (fun m => m != 0))[i]? = some true := by
      rw [List.getElem?_map, hpi]
      simpa using hm0
    rw [List.getElem?_zipWith, hfirst, hpad_w] at hwi
    simp only [if_true, Option.some.injEq] at hwi
    rw [← hwi]
    exact hwpos

theorem selectMasked_where_pos {rows : List Row} {seqLen : Nat}
    (hinv : ∀ row ∈ rows, RowInv seqLen row) :
    ∀ x ∈ selectMasked
        (rows.map (fun r => (padTo seqLen (0 : Int) r.assistant_mask).map (fun m => m != 0)))
        (whereMask
          (rows.map (fun r => (padTo seqLen (0 : Int) r.assistant_mask).map (fun m => m != 0)))
          (rows.map (fun r => padTo seqLen (0 : ℚ) r.weights))),
      0 < x := by
  intro x hx
  rw [selectMasked, whereMask, zipWith_map_same, List.zipWith_map, List.zipWith_same]
    at hx
  obtain ⟨l, hl, hxl⟩ := List.mem_flatten.mp hx
  obtain ⟨row, hrow, hleq⟩ := List.mem_map.mp hl
  rw [← hleq] at hxl
  exact selRow_where_pos (hinv row hrow) x hxl

theorem finalize_mean_one {rows : List Row} {seqLen : Nat} {padTokenId : Int}
    (hinv : ∀ row ∈ rows, RowInv seqLen row)
    (hne : selectMasked (finalizeRows rows seqLen padTokenId).assistant_mask
      (finalizeRows rows seqLen padTokenId).weights ≠ []) :
    (selectMasked (finalizeRows rows seqLen padTokenId).assistant_mask
        (finalizeRows rows seqLen padTokenId).weights).sum
      / ((selectMasked (finalizeRows rows seqLen padTokenId).assistant_mask
        (finalizeRows rows seqLen padTokenId).weights).length : ℚ) = 1 := by
  have hmask_eq : (finalizeRows rows seqLen padTokenId).assistant_mask
      = rows.map (fun r => (padTo seqLen (0 : Int) r.assistant_mask).map (fun m => m != 0)) :=
    rfl
  have hweights_eq : (finalizeRows rows seqLen padTokenId).weights
      = normalizeWeights
          (rows.map (fun r => (padTo seqLen (0 : Int) r.assistant_mask).map (fun m => m != 0)))
          (whereMask
            (rows.map (fun r => (padTo seqLen (0 : Int) r.assistant_mask).map (fun m => m != 0)))
            (rows.map (fun r => padTo seqLen (0 : ℚ) r.weights))) := rfl
  rw [hmask_eq, hweights_eq] at hne ⊢
  by_cases hsel : (selectMasked
      (rows.map (fun r => (padTo seqLen (0 : Int) r.assistant_mask).map (fun m => m != 0)))
      (whereMask
        (rows.map (fun r => (padTo seqLen (0 : Int) r.assistant_mask).map (fun m => m != 0)))
        (rows.map (fun r => padTo seqLen (0 : ℚ) r.weights)))).isEmpty
  · rw [show normalizeWeights
        (rows.map (fun r => (padTo seqLen (0 : Int) r.assistant_mask).map (fun m => m != 0)))
        (whereMask
          (rows.map (fun r => (padTo seqLen (0 : Int) r.assistant_mask).map (fun m => m != 0)))
          (rows.map (fun r => padTo seqLen (0 : ℚ) r.weights)))
      = whereMask
          (rows.map (fun r => (padTo seqLen (0 : Int) r.assistant_mask).map (fun m => m != 0)))
          (rows.map (fun r => padTo seqLen (0 : ℚ) r.weights))
      from by simp only [normalizeWeights]; rw [if_pos hsel]] at hne ⊢
    exact absurd (List.isEmpty_iff.mp hsel) hne
  · have hsel' : selectMasked
        (rows.map (fun r => (padTo seqLen (0 : Int) r.assistant_mask).map (fun m => m != 0)))
        (whereMask
          (rows.map (fun r => (padTo seqLen (0 : Int) r.assistant_mask).map (fun m => m != 0)))
          (rows.map (fun r => padTo seqLen (0 : ℚ) r.weights))) ≠ [] := by
      simpa [List.isEmpty_iff] using hsel
    rw [show normalizeWeights
        (rows.map (fun r => (padTo seqLen (0 : Int) r.assistant_mask).map (fun m => m != 0)))
        (whereMask
          (rows.map (fun r => (padTo seqLen (0 : Int) r.assistant_mask).map (fun m => m != 0)))
          (rows.map (fun r => padTo seqLen (0 : ℚ) r.weights)))
      = List.zipWith
          (fun mrow wrow => List.zipWith
            (fun b x => if b then x /
              ((selectMasked
                (rows.map (fun r => (padTo seqLen (0 : Int) r.assistant_mask).map (fun m => m != 0)))
                (whereMask
                  (rows.map (fun r => (padTo seqLen (0 : Int) r.assistant_mask).map (fun m => m != 0)))
                  (rows.map (fun r => padTo seqLen (0 : ℚ) r.weights)))).sum /
              ((selectMasked
                (rows.map (fun r => (padTo seqLen (0 : Int) r.assistant_mask).map (fun m => m != 0)))
                (whereMask
                  (rows.map (fun r => (padTo seqLen (0 : Int) r.assistant_mask).map (fun m => m != 0)))
                  (rows.map (fun r => padTo seqLen (0 : ℚ) r.weights)))).length : ℚ))
            else x) mrow wrow)
          (rows.map (fun r => (padTo seqLen (0 : Int) r.assistant_mask).map (fun m => m != 0)))
          (whereMask
            (rows.map (fun r => (padTo seqLen (0 : Int) r.assistant_mask).map (fun m => m != 0)))
            (rows.map (fun r => padTo seqLen (0 : ℚ) r.weights)))
      from by simp only [normalizeWeights]; rw [if_neg hsel]]
    rw [selectMasked_scale]
    exact maskedMean_normalize (selectMasked_where_pos hinv) hsel'

/-! ### Shape lemmas for the finalized output -/

theorem map_padTo_shape {β : Type} {rows : List Row} {seqLen : Nat} (p : β)
    (f : Row → List β) (hf : ∀ row ∈ rows, (f row).length ≤ seqLen) :
    (rows.map (fun r => padTo seqLen p (f r))).length = rows.length ∧
    ∀ l ∈ rows.map (fun r => padTo seqLen p (f r)), l.length = seqLen := by
  refine ⟨by simp, ?_⟩
  intro l hl
  obtain ⟨row, hrow, rfl⟩ := List.mem_map.mp hl
  exact padTo_length (hf row hrow)

theorem maskBool_shape {rows : List Row} {seqLen : Nat}
    (hinv : ∀ row ∈ rows, RowInv seqLen row) :
    (rows.map (fun r => (padTo seqLen (0 : Int) r.assistant_mask).map
      (fun m => m != 0))).length = rows.length ∧
    ∀ l ∈ rows.map (fun r => (padTo seqLen (0 : Int) r.assistant_mask).map
      (fun m => m != 0)), l.length = seqLen := by
  refine ⟨by simp, ?_⟩
  intro l hl
  obtain ⟨row, hrow, rfl⟩ := List.mem_map.mp hl
  obtain ⟨haligned, hbnd, _⟩ := hinv row hrow
  rw [List.length_map, padTo_length (by rw [haligned.2.2.2.1]; exact hbnd)]

theorem normalizeWeights_map_shape {rows : List Row} {seqLen : Nat}
    (F : Row → List Bool) (G : Row → List ℚ)
    (hF : ∀ r ∈ rows, (F r).length = seqLen)
    (hG : ∀ r ∈ rows, (G r).length = seqLen) :
    (normalizeWeights (rows.map F) (rows.map G)).length = rows.length ∧
    ∀ l ∈ normalizeWeights (rows.map F) (rows.map G), l.length = seqLen := by
  simp only [normalizeWeights]
  by_cases hsel : (selectMasked (rows.map F) (rows.map G)).isEmpty
  · rw [if_pos hsel]
    refine ⟨by simp, ?_⟩
    intro l hl
    obtain ⟨r, hr, rfl⟩ := List.mem_map.mp hl
    exact hG r hr
  · rw [if_neg hsel, List.zipWith_map, List.zipWith_same]
    refine ⟨by simp, ?_⟩
    intro l hl
    obtain ⟨r, hr, rfl⟩ := List.mem_map.mp hl
    rw [List.length_zipWith, hF r hr, hG r hr]
    simp

theorem finalize_weights_shape {rows : List Row} {seqLen : Nat} {padTokenId : Int}
    (hinv : ∀ row ∈ rows, RowInv seqLen row) :
    (finalizeRows rows seqLen padTokenId).weights.length = rows.length ∧
    ∀ l ∈ (finalizeRows rows seqLen padTokenId).weights, l.length = seqLen := by
  have hmasklen : ∀ row ∈ rows,
      ((padTo seqLen (0 : Int) row.assistant_mask).map (fun m => m != 0)).length
        = seqLen := by
    intro row hrow
    obtain ⟨haligned, hbnd, _⟩ := hinv row hrow
    rw [List.length_map, padTo_length (by rw [haligned.2.2.2.1]; exact hbnd)]
  have hwlen : ∀ row ∈ rows, (padTo seqLen (0 : ℚ) row.weights).length = seqLen := by
    intro row hrow
    obtain ⟨haligned, hbnd, _⟩ := hinv row hrow
    exact padTo_length (by rw [haligned.2.2.2.2.2.2.1]; exact hbnd)
  have hfw : (finalizeRows rows seqLen padTokenId).weights
      = normalizeWeights
          (rows.map (fun r => (padTo seqLen (0 : Int) r.assistant_mask).map (fun m => m != 0)))
          (whereMask
            (rows.map (fun r => (padTo seqLen (0 : Int) r.assistant_mask).map (fun m => m != 0)))
            (rows.map (fun r => padTo seqLen (0 : ℚ) r.weights))) := rfl
  have hwhere : whereMask
      (rows.map (fun r => (padTo seqLen (0 : Int) r.assistant_mask).map (fun m => m != 0)))
      (rows.map (fun r => padTo seqLen (0 : ℚ) r.weights))
      = rows.map (fun r => List.zipWith (fun b x => if b then x else 0)
          ((padTo seqLen (0 : Int) r.assistant_mask).map (fun m => m != 0))
          (padTo seqLen (0 : ℚ) r.weights)) := by
    rw [whereMask, List.zipWith_map, List.zipWith_same]
  rw [hfw, hwhere]
  refine normalizeWeights_map_shape _ _ hmasklen ?_
  intro r hr
  rw [List.length_zipWith, hmasklen r hr, hwlen r hr]
  simp

theorem mem_of_getElem?_some {β : Type} {l : List β} {i : Nat} {a : β}
    (h : l[i]? = some a) : a ∈ l := by
  obtain ⟨hi, rfl⟩ := List.getElem?_eq_some.mp h
  exact List.getElem_mem hi

theorem finalize_weights_unmasked {rows : List Row} {seqLen : Nat}
    {padTokenId : Int} {i j : Nat} {brow : List Bool} {wrow : List ℚ}
    (hinv : ∀ row ∈ rows, RowInv seqLen row)
    (hm : (finalizeRows rows seqLen padTokenId).assistant_mask[i]? = some brow)
    (hw : (finalizeRows rows seqLen padTokenId).weights[i]? = some wrow)
    (hb : brow[j]? = some false) : wrow[j]? = some 0 := by
  have hmask_eq : (finalizeRows rows seqLen padTokenId).assistant_mask
      = rows.map (fun r => (padTo seqLen (0 : Int) r.assistant_mask).map
          (fun m => m != 0)) := rfl
  have hfw : (finalizeRows rows seqLen padTokenId).weights
      = normalizeWeights
          (rows.map (fun r => (padTo seqLen (0 : Int) r.assistant_mask).map (fun m => m != 0)))
          (whereMask
            (rows.map (fun r => (padTo seqLen (0 : Int) r.assistant_mask).map (fun m => m != 0)))
            (rows.map (fun r => padTo seqLen (0 : ℚ) r.weights))) := rfl
  have hwhere : whereMask
      (rows.map (fun r => (padTo seqLen (0 : Int) r.assistant_mask).map (fun m => m != 0)))
      (rows.map (fun r => padTo seqLen (0 : ℚ) r.weights))
      = rows.map (fun r => List.zipWith (fun b x => if b then x else 0)
          ((padTo seqLen (0 : Int) r.assistant_mask).map (fun m => m != 0))
          (padTo seqLen (0 : ℚ) r.weights)) := by
    rw [whereMask, List.zipWith_map, List.zipWith_same]
  rw [hmask_eq, List.getElem?_map] at hm
  cases hri : rows[i]? with
  | none => rw [hri] at hm; cases hm
  | some row =>
    rw [hri] at hm
    simp only [Option.map_some'] at hm
    cases hm
    have hrow : row ∈ rows := mem_of_getElem?_some hri
    obtain ⟨haligned, hbnd, _⟩ := hinv row hrow
    have hmlen : ((padTo seqLen (0 : Int) row.assistant_mask).map
        (fun m => m != 0)).length = seqLen := by
      rw [List.length_map, padTo_length (by rw [haligned.2.2.2.1]; exact hbnd)]
    have hwplen : (padTo seqLen (0 : ℚ) row.weights).length = seqLen :=
      padTo_length (by rw [haligned.2.2.2.2.2.2.1]; exact hbnd)
    have hj : j < seqLen := by
      have := (List.getElem?_eq_some.mp hb).1
      rw [hmlen] at this
      exact this
    obtain ⟨y, hy⟩ : ∃ y, (padTo seqLen (0 : ℚ) row.weights)[j]? = some y :=
      ⟨_, List.getElem?_eq_getElem (by rw [hwplen]; exact hj)⟩
    have hinner : (List.zipWith (fun b x => if b then x else 0)
        ((padTo seqLen (0 : Int) row.assistant_mask).map (fun m => m != 0))
        (padTo seqLen (0 : ℚ) row.weights))[j]? = some 0 := by
      rw [List.getElem?_zipWith, hb, hy]
      simp
    rw [hfw, hwhere] at hw
    simp only [normalizeWeights] at hw
    by_cases hsel : (selectMasked
        (rows.map (fun r => (padTo seqLen (0 : Int) r.assistant_mask).map (fun m => m != 0)))
        (rows.map (fun r => List.zipWith (fun b x => if b then x else 0)
          ((padTo seqLen (0 : Int) r.assistant_mask).map (fun m => m != 0))
          (padTo seqLen (0 : ℚ) r.weights)))).isEmpty
    · rw [if_pos hsel, List.getElem?_map, hri] at hw
      simp only [Option.map_some'] at hw
      cases hw
      exact hinner
    · rw [if_neg hsel, List.zipWith_map, List.zipWith_same, List.getElem?_map, hri]
        at hw
      simp only [Option.map_some'] at hw
      cases hw
      rw [List.getElem?_zipWith, hb, hinner]
      simp

/-! ### The trailing-advantage invariant (no truncation) -/

theorem set_last_getLast? {l : List ℚ} (h : l ≠ []) :
    (l.set (l.length - 1) 0).getLast? = some 0 := by
  have hpos : 0 < l.length := List.length_pos.mpr h
  rw [List.getLast?_eq_getElem?, List.length_set, List.getElem?_set, if_pos rfl,
    if_pos (by omega)]

theorem appendResult_advLast {seqLen : Nat} {gid : Int} {cur : Row}
    {eff : TokenizedResult} {row : Row}
    (h : appendResult seqLen false gid cur eff = Except.ok row) :
    RowAdvLastZero row := by
  obtain ⟨lps, hlps, hne, hsum, hrow⟩ := appendResult_ok_elim h
  rw [hrow, if_neg (by simp)]
  right
  simp only [rawAppendRow]
  exact set_last_getLast? hne

theorem packStep_ok_cases {seqLen : Nat} {truncate : Bool} {gidf : Nat → Int}
    {s : PackState} {result : TokenizedResult} {s' : PackState}
    (h : packStep seqLen truncate gidf s result = Except.ok s') :
    s' = s ∨
    ∃ cur done cur2 done2 eff row,
      s.rows = cur :: done ∧
      ((cur2 = cur ∧ done2 = done) ∨ (cur2 = emptyRow ∧ done2 = cur :: done)) ∧
      (eff = result ∨ eff = result.without_prompt) ∧
      appendResult seqLen truncate (gidf s.draws) cur2 eff = Except.ok row ∧
      s'.rows = row :: done2 := by
  simp only [packStep] at h
  by_cases hskip1 : seqLen < result.token_ids.length ∧ truncate = false
  · rw [if_pos hskip1] at h
    cases h
    exact Or.inl rfl
  · rw [if_neg hskip1] at h
    by_cases hskip2 : result.assistant_mask.sum = 0
    · rw [if_pos hskip2] at h
      cases h
      exact Or.inl rfl
    · rw [if_neg hskip2] at h
      cases hrows : s.rows with
      | nil => rw [hrows] at h; cases h
      | cons cur done =>
        rw [hrows] at h
        dsimp only at h
        right
        by_cases hm : result.prompt_id ∈ cur.group_ids
        · rw [if_pos hm] at h
          by_cases hflush :
              seqLen < cur.token_ids.length + result.without_prompt.token_ids.length
          · rw [if_pos hflush] at h
            dsimp only at h
            rw [if_neg (by simp [emptyRow])] at h
            obtain ⟨row, happ, hs'⟩ := exceptMap_ok_elim h
            exact ⟨cur, done, emptyRow, cur :: done, result, row, rfl,
              Or.inr ⟨rfl, rfl⟩, Or.inl rfl, happ, by rw [hs']⟩
          · rw [if_neg hflush] at h
            dsimp only at h
            rw [if_pos hm] at h
            obtain ⟨row, happ, hs'⟩ := exceptMap_ok_elim h
            exact ⟨cur, done, cur, done, result.without_prompt, row, rfl,
              Or.inl ⟨rfl, rfl⟩, Or.inr rfl, happ, by rw [hs']⟩
        · rw [if_neg hm] at h
          by_cases hflush : seqLen < cur.token_ids.length + result.token_ids.length
          · rw [if_pos hflush] at h
            dsimp only at h
            rw [if_neg (by simp [emptyRow])] at h
            obtain ⟨row, happ, hs'⟩ := exceptMap_ok_elim h
            exact ⟨cur, done, emptyRow, cur :: done, result, row, rfl,
              Or.inr ⟨rfl, rfl⟩, Or.inl rfl, happ, by rw [hs']⟩
          · rw [if_neg hflush] at h
            dsimp only at h
            rw [if_neg hm] at h
            obtain ⟨row, happ, hs'⟩ := exceptMap_ok_elim h
            exact ⟨cur, done, cur, done, result, row, rfl,
              Or.inl ⟨rfl, rfl⟩, Or.inl rfl, happ, by rw [hs']⟩

theorem packStep_advLast {seqLen : Nat} {gidf : Nat → Int} {s : PackState}
    {result : TokenizedResult} {s' : PackState}
    (hs : ∀ row ∈ s.rows, RowAdvLastZero row)
    (h : packStep seqLen false gidf s result = Except.ok s') :
    ∀ row ∈ s'.rows, RowAdvLastZero row := by
  rcases packStep_ok_cases h with heq | ⟨cur, done, cur2, done2, eff, row, hrows,
    hcur2, heff, happ, hs'⟩
  · rw [heq]
    exact hs
  · rw [hs']
    intro r hr
    rcases List.mem_cons.mp hr with h' | h'
    · rw [h']
      exact appendResult_advLast happ
    · rcases hcur2 with ⟨_, hd⟩ | ⟨_, hd⟩
      · exact hs r (by rw [hrows]; exact List.mem_cons_of_mem _ (hd ▸ h'))
      · rw [hd] at h'
        exact hs r (by rw [hrows]; exact h')

theorem packRows_advLast {results : List TokenizedResult} {seqLen : Nat}
    {gidf : Nat → Int} {rows : List Row}
    (h : packRows results seqLen false gidf = Except.ok rows) :
    ∀ row ∈ rows, RowAdvLastZero row := by
  obtain ⟨s, hfold, hrows⟩ := exceptMap_ok_elim h
  have hinv := foldExceptInv (packStep seqLen false gidf)
    (fun st => ∀ row ∈ st.rows, RowAdvLastZero row) results _ s
    (fun st a st' _ hst hstep => packStep_advLast hst hstep)
    (by
      intro row hrow
      rw [List.mem_singleton.mp hrow]
      exact Or.inl rfl) hfold
  rw [hrows]
  exact fun row hrow => hinv row (List.mem_reverse.mp hrow)

/-! ### All-falsy logprobs come out as NaN everywhere -/

theorem without_prompt_falsy {r : TokenizedResult}
    (hfalsy : ∀ tl, r.token_logprobs = some tl → ∀ lp ∈ tl, orNaN lp.logprob = none) :
    ∀ tl, r.without_prompt.token_logprobs = some tl →
      ∀ lp ∈ tl, orNaN lp.logprob = none := by
  intro tl htl lp hlp
  simp only [TokenizedResult.without_prompt, Option.map_eq_some'] at htl
  obtain ⟨tl0, htl0, hslice⟩ := htl
  exact hfalsy tl0 htl0 lp (pySliceFrom_subset _ (hslice ▸ hlp))

theorem packStep_logprobs_none {seqLen : Nat} {truncate : Bool} {gidf : Nat → Int}
    {s : PackState} {result : TokenizedResult} {s' : PackState}
    (hfalsy : ∀ tl, result.token_logprobs = some tl →
      ∀ lp ∈ tl, orNaN lp.logprob = none)
    (hs : ∀ row ∈ s.rows, ∀ x ∈ row.logprobs, x = none)
    (h : packStep seqLen truncate gidf s result = Except.ok s') :
    ∀ row ∈ s'.rows, ∀ x ∈ row.logprobs, x = none := by
  rcases packStep_ok_cases h with heq | ⟨cur, done, cur2, done2, eff, row, hrows,
    hcur2, heff, happ, hs'⟩
  · rw [heq]
    exact hs
  · have hcur2none : ∀ x ∈ cur2.logprobs, x = none := by
      rcases hcur2 with ⟨hc, _⟩ | ⟨hc, _⟩
      · rw [hc]
        exact hs cur (by rw [hrows]; exact List.mem_cons_self _ _)
      · rw [hc]
        intro x hx
        simp [emptyRow] at hx
    have hefffalsy : ∀ tl, eff.token_logprobs = some tl →
        ∀ lp ∈ tl, orNaN lp.logprob = none := by
      rcases heff with he | he
      · rw [he]; exact hfalsy
      · rw [he]; exact without_prompt_falsy hfalsy
    obtain ⟨lps, hlps, _, _, hrow⟩ := appendResult_ok_elim happ
    have hlpsnone : ∀ x ∈ lps, x = none :=
      resolveLogprobs_none hcur2none hefffalsy hlps
    have hrownone : ∀ x ∈ row.logprobs, x = none := by
      rw [hrow]
      cases truncate with
      | true =>
        rw [if_pos rfl]
        intro x hx
        exact hlpsnone x (List.mem_of_mem_take (by simpa [truncateRow, rawAppendRow] using hx))
      | false =>
        rw [if_neg (by simp)]
        intro x hx
        exact hlpsnone x (by simpa [rawAppendRow] using hx)
    rw [hs']
    intro r hr
    rcases List.mem_cons.mp hr with h' | h'
    · rw [h']
      exact hrownone
    · rcases hcur2 with ⟨_, hd⟩ | ⟨_, hd⟩
      · exact hs r (by rw [hrows]; exact List.mem_cons_of_mem _ (hd ▸ h'))
      · rw [hd] at h'
        exact hs r (by rw [hrows]; exact h')

theorem packRows_logprobs_none {results : List TokenizedResult} {seqLen : Nat}
    {truncate : Bool} {gidf : Nat → Int} {rows : List Row}
    (hfalsy : ∀ r ∈ results, ∀ tl, r.token_logprobs = some tl →
      ∀ lp ∈ tl, orNaN lp.logprob = none)
    (h : packRows results seqLen truncate gidf = Except.ok rows) :
    ∀ row ∈ rows, ∀ x ∈ row.logprobs, x = none := by
  obtain ⟨s, hfold, hrows⟩ := exceptMap_ok_elim h
  have hinv := foldExceptInv (packStep seqLen truncate gidf)
    (fun st => ∀ row ∈ st.rows, ∀ x ∈ row.logprobs, x = none) results _ s
    (fun st a st' ha hst hstep => packStep_logprobs_none (hfalsy a ha) hst hstep)
    (by
      intro row hrow x hx
      rw [List.mem_singleton.mp hrow] at hx
      simp [emptyRow] at hx) hfold
  rw [hrows]
  exact fun row hrow => hinv row (List.mem_reverse.mp hrow)

/-! ### All-zero weights when nothing is assistant-masked -/

theorem selectMasked_nil_of_all_false {mb : List (List Bool)} {w : List (List ℚ)}
    (hmask : ∀ brow ∈ mb, ∀ b ∈ brow, b = false) :
    selectMasked mb w = [] := by
  by_contra hne
  obtain ⟨x, hx⟩ := List.exists_mem_of_ne_nil _ hne
  rw [selectMasked] at hx
  obtain ⟨l, hl, hxl⟩ := List.mem_flatten.mp hx
  obtain ⟨i, hi⟩ := List.mem_iff_getElem?.mp hl
  rw [List.getElem?_zipWith] at hi
  cases hmb : mb[i]? with
  | none => rw [hmb] at hi; cases hi
  | some brow =>
    cases hww : w[i]? with
    | none => rw [hmb, hww] at hi; cases hi
    | some wrow =>
      rw [hmb, hww] at hi
      simp only [Option.some.injEq] at hi
      obtain ⟨j, hmj, _⟩ := selRow_mem _ _ _ (hi ▸ hxl)
      have := hmask brow (mem_of_getElem?_some hmb) true (mem_of_getElem?_some hmj)
      cases this

theorem finalize_weights_all_zero {rows : List Row} {seqLen : Nat} {padTokenId : Int}
    (hmask : ∀ brow ∈ (finalizeRows rows seqLen padTokenId).assistant_mask,
      ∀ b ∈ brow, b = false) :
    ∀ wrow ∈ (finalizeRows rows seqLen padTokenId).weights, ∀ x ∈ wrow, x = 0 := by
  have hmask_eq : (finalizeRows rows seqLen padTokenId).assistant_mask
      = rows.map (fun r => (padTo seqLen (0 : Int) r.assistant_mask).map
          (fun m => m != 0)) := rfl
  have hfw : (finalizeRows rows seqLen padTokenId).weights
      = normalizeWeights
          (rows.map (fun r => (padTo seqLen (0 : Int) r.assistant_mask).map (fun m => m != 0)))
          (whereMask
            (rows.map (fun r => (padTo seqLen (0 : Int) r.assistant_mask).map (fun m => m != 0)))
            (rows.map (fun r => padTo seqLen (0 : ℚ) r.weights))) := rfl
  rw [hmask_eq] at hmask
  have hsel : selectMasked
      (rows.map (fun r => (padTo seqLen (0 : Int) r.assistant_mask).map (fun m => m != 0)))
      (whereMask
        (rows.map (fun r => (padTo seqLen (0 : Int) r.assistant_mask).map (fun m => m != 0)))
        (rows.map (fun r => padTo seqLen (0 : ℚ) r.weights))) = [] :=
    selectMasked_nil_of_all_false hmask
  rw [hfw]
  simp only [normalizeWeights]
  rw [if_pos (by rw [hsel]; rfl)]
  intro wrow hw x hx
  rw [whereMask] at hw
  obtain ⟨i, hi⟩ := List.mem_iff_getElem?.mp hw
  rw [List.getElem?_zipWith] at hi
  cases hmb : (rows.map (fun r => (padTo seqLen (0 : Int) r.assistant_mask).map
      (fun m => m != 0)))[i]? with
  | none => rw [hmb] at hi; cases hi
  | some brow =>
    cases hw1 : (rows.map (fun r => padTo seqLen (0 : ℚ) r.weights))[i]? with
    | none => rw [hmb, hw1] at hi; cases hi
    | some w1row =>
      rw [hmb, hw1] at hi
      simp only [Option.some.injEq] at hi
      rw [← hi] at hx
      obtain ⟨j, hj⟩ := List.mem_iff_getElem?.mp hx
      rw [List.getElem?_zipWith] at hj
      cases hbj : brow[j]? with
      | none => rw [hbj] at hj; cases hj
      | some b =>
        cases hyj : w1row[j]? with
        | none => rw [hbj, hyj] at hj; cases hj
        | some y =>
          rw [hbj, hyj] at hj
          simp only [Option.some.injEq] at hj
          have hbf : b = false :=
            hmask brow (mem_of_getElem?_some hmb) b (mem_of_getElem?_some hbj)
          rw [← hj, hbf]
          simp

/-! ### Characterisation of the common-prefix computation -/

theorem transposeMin_getElem? : ∀ (j : Nat) (tss : List (List Int)),
    (transposeMin tss)[j]? =
      if tss ≠ [] ∧ ∀ ts ∈ tss, j < ts.length
      then some (tss.map (fun ts => ts.getD j 0)) else none := by
  intro j
  induction j with
  | zero =>
    intro tss
    rw [transposeMin]
    split
    case isTrue h =>
      rw [if_neg]
      · rfl
      · intro ⟨hne, hlen⟩
        rcases Bool.or_eq_true _ _ |>.mp h with h' | h'
        · exact hne (List.isEmpty_iff.mp h')
        · obtain ⟨ts, hts, hempty⟩ := List.any_eq_true.mp h'
          have := hlen ts hts
          rw [List.isEmpty_iff.mp hempty] at this
          simp at this
    case isFalse h =>
      simp only [Bool.or_eq_true, List.any_eq_true, not_or, not_exists, not_and] at h
      obtain ⟨h1, h2⟩ := h
      have hne : tss ≠ [] := fun hc => h1 (by simp [hc])
      have hall : ∀ ts ∈ tss, 0 < ts.length := by
        intro ts hts
        have : ¬ ts.isEmpty = true := h2 ts hts
        simp only [List.isEmpty_iff] at this
        exact List.length_pos.mpr this
      rw [if_pos ⟨hne, hall⟩]
      simp only [List.getElem?_cons_zero, Option.some.injEq]
      refine List.map_congr_left ?_
      intro ts hts
      have : ts ≠ [] := List.length_pos.mp (hall ts hts)
      cases ts with
      | nil => exact absurd rfl this
      | cons a t => simp
  | succ j ih =>
    intro tss
    rw [transposeMin]
    split
    case isTrue h =>
      rw [if_neg]
      · rfl
      · intro ⟨hne, hlen⟩
        rcases Bool.or_eq_true _ _ |>.mp h with h' | h'
        · exact hne (List.isEmpty_iff.mp h')
        · obtain ⟨ts, hts, hempty⟩ := List.any_eq_true.mp h'
          have := hlen ts hts
          rw [List.isEmpty_iff.mp hempty] at this
          simp at this
    case isFalse h =>
      simp only [Bool.or_eq_true, List.any_eq_true, not_or, not_exists, not_and] at h
      obtain ⟨h1, h2⟩ := h
      have hne : tss ≠ [] := fun hc => h1 (by simp [hc])
      have hpos : ∀ ts ∈ tss, 0 < ts.length := by
        intro ts hts
        have : ¬ ts.isEmpty = true := h2 ts hts
        simp only [List.isEmpty_iff] at this
        exact List.length_pos.mpr this
      rw [List.getElem?_cons_succ, ih]
      by_cases hcond : ∀ ts ∈ tss, j + 1 < ts.length
      · have hmapne : tss.map List.tail ≠ [] := by simpa using hne
        have hmaplen : ∀ ts' ∈ tss.map List.tail, j < ts'.length := by
          intro ts' hts'
          obtain ⟨ts, hts, rfl⟩ := List.mem_map.mp hts'
          have := hcond ts hts
          rw [List.length_tail]
          omega
        rw [if_pos ⟨hmapne, hmaplen⟩, if_pos ⟨hne, hcond⟩, List.map_map]
        simp only [Option.some.injEq, Function.comp]
        refine List.map_congr_left ?_
        intro ts hts
        cases ts with
        | nil => simp
        | cons a t => simp
      · have hmaplen' : ¬ ∀ ts' ∈ tss.map List.tail, j < ts'.length := by
          intro hc
          refine hcond ?_
          intro ts hts
          have h1 := hc ts.tail (List.mem_map_of_mem _ hts)
          rw [List.length_tail] at h1
          have h2 := hpos ts hts
          omega
        rw [if_neg (by intro ⟨_, hc⟩; exact hmaplen' hc),
          if_neg (by intro ⟨_, hc⟩; exact hcond hc)]

theorem takeWhile_sat {α : Type} {p : α → Bool} : ∀ (l : List α) (j : Nat),
    j < (l.takeWhile p).length → ∃ a, l[j]? = some a ∧ p a = true := by
  intro l
  induction l with
  | nil => intro j hj; simp [List.takeWhile] at hj
  | cons a t ih =>
    intro j hj
    rw [List.takeWhile_cons] at hj
    by_cases hp : p a
    · rw [if_pos hp] at hj
      cases j with
      | zero => exact ⟨a, by simp, hp⟩
      | succ j' =>
        obtain ⟨b, hb, hpb⟩ := ih j' (by simpa using hj)
        exact ⟨b, by simpa using hb, hpb⟩
    · rw [if_neg hp] at hj
      simp at hj

theorem takeWhile_stop {α : Type} {p : α → Bool} : ∀ (l : List α) {a : α},
    l[(l.takeWhile p).length]? = some a → p a = false := by
  intro l
  induction l with
  | nil => intro a h; cases h
  | cons x t ih =>
    intro a h
    by_cases hp : p x
    · rw [List.takeWhile_cons, if_pos hp, List.length_cons,
        List.getElem?_cons_succ] at h
      exact ih h
    · rw [List.takeWhile_cons, if_neg hp] at h
      simp only [List.length_nil, List.getElem?_cons_zero, Option.some.injEq] at h
      rw [← h]
      exact Bool.not_eq_true _ |>.mp hp

theorem promptLengthOf_agree (tss : List (List Int)) :
    agreeCols tss (promptLengthOf tss) := by
  intro j hj
  obtain ⟨col, hcol, hall⟩ := takeWhile_sat (transposeMin tss) j hj
  rw [transposeMin_getElem?] at hcol
  split at hcol
  case isFalse => cases hcol
  case isTrue hc =>
    obtain ⟨hne, hlen⟩ := hc
    simp only [Option.some.injEq] at hcol
    cases tss with
    | nil => exact absurd rfl hne
    | cons ts0 rest =>
      rw [← hcol] at hall
      simp only [List.map_cons, allEq] at hall
      have hone : ∀ u ∈ rest, u.getD j 0 = ts0.getD j 0 := by
        intro u hu
        have := List.all_eq_true.mp hall (u.getD j 0)
          (List.mem_map.mpr ⟨u, hu, rfl⟩)
        simpa using this
      refine ⟨ts0.getD j 0, ?_⟩
      intro ts hts
      have hlt := hlen ts hts
      have heq : ts.getD j 0 = ts0.getD j 0 := by
        rcases List.mem_cons.mp hts with h' | h'
        · rw [h']
        · exact hone ts h'
      rw [List.getD_eq_getElem?_getD, List.getElem?_eq_getElem hlt] at heq
      simp only [Option.getD_some] at heq
      rw [List.getElem?_eq_getElem hlt, heq]

theorem promptLengthOf_maximal {tss : List (List Int)} (hne : tss ≠ []) :
    ¬ agreeCols tss (promptLengthOf tss + 1) := by
  intro hagree
  obtain ⟨t, ht⟩ := hagree (promptLengthOf tss) (by omega)
  have hlen : ∀ ts ∈ tss, promptLengthOf tss < ts.length := by
    intro ts hts
    exact (List.getElem?_eq_some.mp (ht ts hts)).1
  have hcol : (transposeMin tss)[promptLengthOf tss]? =
      some (tss.map (fun ts => ts.getD (promptLengthOf tss) 0)) := by
    rw [transposeMin_getElem?, if_pos ⟨hne, hlen⟩]
  have hstop := takeWhile_stop (transposeMin tss) hcol
  have hvals : ∀ ts ∈ tss, ts.getD (promptLengthOf tss) 0 = t := by
    intro ts hts
    rw [List.getD_eq_getElem?_getD, ht ts hts]
    rfl
  cases tss with
  | nil => exact absurd rfl hne
  | cons ts0 rest =>
    rw [show (ts0 :: rest).map (fun ts => ts.getD (promptLengthOf (ts0 :: rest)) 0)
        = ts0.getD (promptLengthOf (ts0 :: rest)) 0 ::
          rest.map (fun ts => ts.getD (promptLengthOf (ts0 :: rest)) 0)
      from rfl] at hstop
    simp only [allEq] at hstop
    have htrue : ((rest.map (fun ts => ts.getD (promptLengthOf (ts0 :: rest)) 0)).all
        (fun y => y == ts0.getD (promptLengthOf (ts0 :: rest)) 0)) = true := by
      rw [List.all_eq_true]
      intro y hy
      obtain ⟨u, hu, rfl⟩ := List.mem_map.mp hy
      rw [hvals u (List.mem_cons_of_mem _ hu), hvals ts0 (List.mem_cons_self _ _)]
      simp
    rw [htrue] at hstop
    cases hstop

/-! ### Claim theorems -/

/-- C8: for every group of sibling results processed by the grouping pass, the
assigned `prompt_length` is the largest `k` such that in every column `< k`
all siblings carry the same token id (0 for zero siblings), every sibling
receives the same given `prompt_id`, and every sibling's `assistant_mask` is
zeroed at the first `prompt_length` positions. The fresh 64-bit draw is the
`pid` argument; `agreeCols` is downward closed, so `agreeCols pl ∧
¬ agreeCols (pl + 1)` states that `pl` is the largest such `k`. -/
theorem c8_prompt_grouping (pid : Int) (rs : List TokenizedResult) :
    (∀ r' ∈ assignPromptGroup pid rs,
      r'.prompt_id = pid ∧
      r'.prompt_length = promptLengthOf (rs.map TokenizedResult.token_ids) ∧
      ∀ j < promptLengthOf (rs.map TokenizedResult.token_ids),
        r'.assistant_mask[j]? = some 0) ∧
    agreeCols (rs.map TokenizedResult.token_ids)
      (promptLengthOf (rs.map TokenizedResult.token_ids)) ∧
    (rs = [] → promptLengthOf (rs.map TokenizedResult.token_ids) = 0) ∧
    (rs ≠ [] → ¬ agreeCols (rs.map TokenizedResult.token_ids)
      (promptLengthOf (rs.map TokenizedResult.token_ids) + 1)) := by
  refine ⟨?_, promptLengthOf_agree _, ?_, ?_⟩
  · intro r' hr'
    obtain ⟨r, hr, rfl⟩ := List.mem_map.mp hr'
    refine ⟨rfl, rfl, ?_⟩
    intro j hj
    simp only
    rw [List.getElem?_append_left (by rw [List.length_replicate]; exact hj),
      List.getElem?_replicate, if_pos hj]
  · intro hrs
    rw [hrs]
    have hT : transposeMin [] = [] := by
      rw [transposeMin]
      simp
    simp [promptLengthOf, hT]
  · intro hrs
    exact promptLengthOf_maximal (by simpa using hrs)

theorem viewSqueeze_id {β : Type} {x : Tensor β} {num seq : Nat}
    (hs : x.shape = [num, seq]) (hd : x.data.length = num * seq)
    (hnum : num ≠ 1) (hseq : seq ≠ 1) :
    viewSqueeze num seq x.data = x := by
  cases x with
  | mk shape data =>
    simp only at hs hd
    rw [hs, viewSqueeze]
    have h1 : (num != 1) = true := by simpa using hnum
    have h2 : (seq != 1) = true := by simpa using hseq
    congr 1
    · simp [List.filter, h1, h2]
    · rw [Nat.mul_one, List.take_of_length_le (le_of_eq hd)]

/-- C9 (amended): writing the nine channel tensors to a store and reading them
back through the returned descriptor restores every channel exactly, provided
every channel has shape `(num, seq)` with row-major data and neither dimension
equals 1; a size-1 dimension would be removed by the `squeeze` on read. -/
theorem c9_roundtrip (t : TensorDict) (num seq : Nat)
    (h1 : t.tokens.shape = [num, seq]) (h2 : t.group_ids.shape = [num, seq])
    (h3 : t.parent_ids.shape = [num, seq]) (h4 : t.input_pos.shape = [num, seq])
    (h5 : t.assistant_mask.shape = [num, seq]) (h6 : t.logprobs.shape = [num, seq])
    (h7 : t.advantages.shape = [num, seq]) (h8 : t.weights.shape = [num, seq])
    (h9 : t.deferred.shape = [num, seq])
    (d1 : t.tokens.data.length = num * seq)
    (d2 : t.group_ids.data.length = num * seq)
    (d3 : t.parent_ids.data.length = num * seq)
    (d4 : t.input_pos.data.length = num * seq)
    (d5 : t.assistant_mask.data.length = num * seq)
    (d6 : t.logprobs.data.length = num * seq)
    (d7 : t.advantages.data.length = num * seq)
    (d8 : t.weights.data.length = num * seq)
    (d9 : t.deferred.data.length = num * seq)
    (hnum : num ≠ 1) (hseq : seq ≠ 1) :
    packed_tensors_from_dir (packed_tensors_to_dir t).1 (packed_tensors_to_dir t).2
      = t := by
  obtain ⟨tok, gid, par, inp, asm, lgp, adv, wts, dfr⟩ := t
  simp only at h1 h2 h3 h4 h5 h6 h7 h8 h9 d1 d2 d3 d4 d5 d6 d7 d8 d9
  simp only [packed_tensors_to_dir, packed_tensors_from_dir, h1, List.getD]
  simp only [TensorDict.mk.injEq]
  refine ⟨?_, ?_, ?_, ?_, ?_, ?_, ?_, ?_, ?_⟩ <;>
    first
      | exact viewSqueeze_id h1 d1 hnum hseq
      | exact viewSqueeze_id h2 d2 hnum hseq
      | exact viewSqueeze_id h3 d3 hnum hseq
      | exact viewSqueeze_id h4 d4 hnum hseq
      | exact viewSqueeze_id h5 d5 hnum hseq
      | exact viewSqueeze_id h6 d6 hnum hseq
      | exact viewSqueeze_id h7 d7 hnum hseq
      | exact viewSqueeze_id h8 d8 hnum hseq
      | exact viewSqueeze_id h9 d9 hnum hseq

/-- C9 counterexample: a `PackedTensors` with a single row (`num_sequences = 1`)
does not survive the round trip with its shape intact: the `squeeze` on read
turns the `(1, 2)` tokens tensor into a 1-D tensor of shape `(2)`. -/
theorem c9_roundtrip_counterexample :
    packed_tensors_from_dir
        (packed_tensors_to_dir
          { tokens := ⟨[1, 2], [3, 4]⟩, group_ids := ⟨[1, 2], [5, 5]⟩,
            parent_ids := ⟨[1, 2], [5, 5]⟩, input_pos := ⟨[1, 2], [0, 1]⟩,
            assistant_mask := ⟨[1, 2], [false, true]⟩,
            logprobs := ⟨[1, 2], [none, none]⟩, advantages := ⟨[1, 2], [0, 0]⟩,
            weights := ⟨[1, 2], [0, 1]⟩, deferred := ⟨[1, 2], [false, false]⟩ }).1
        (packed_tensors_to_dir
          { tokens := ⟨[1, 2], [3, 4]⟩, group_ids := ⟨[1, 2], [5, 5]⟩,
            parent_ids := ⟨[1, 2], [5, 5]⟩, input_pos := ⟨[1, 2], [0, 1]⟩,
            assistant_mask := ⟨[1, 2], [false, true]⟩,
            logprobs := ⟨[1, 2], [none, none]⟩, advantages := ⟨[1, 2], [0, 0]⟩,
            weights := ⟨[1, 2], [0, 1]⟩, deferred := ⟨[1, 2], [false, false]⟩ }).2
      ≠ { tokens := ⟨[1, 2], [3, 4]⟩, group_ids := ⟨[1, 2], [5, 5]⟩,
          parent_ids := ⟨[1, 2], [5, 5]⟩, input_pos := ⟨[1, 2], [0, 1]⟩,
          assistant_mask := ⟨[1, 2], [false, true]⟩,
          logprobs := ⟨[1, 2], [none, none]⟩, advantages := ⟨[1, 2], [0, 0]⟩,
          weights := ⟨[1, 2], [0, 1]⟩, deferred := ⟨[1, 2], [false, false]⟩ } := by
  intro h
  have := congrArg (fun t => t.tokens.shape) h
  simp [packed_tensors_from_dir, packed_tensors_to_dir, viewSqueeze,
    List.filter] at this

/-- C6: a result that is not skipped is appended to the current row exactly
when the row's filled length plus the result's effective length (the
prompt-stripped length when its `prompt_id` already appears among the current
row's group markers, the full length otherwise) does not strictly exceed
`seqLen`; otherwise the current row is closed and a fresh row is opened first.
In particular an exact fit is appended to the current row, not deferred. -/
theorem c6_flush_iff (seqLen : Nat) (truncate : Bool) (gidf : Nat → Int)
    (cur : Row) (done : List Row) (k : Nat) (r : TokenizedResult) (s' : PackState)
    (hskip1 : ¬(seqLen < r.token_ids.length ∧ truncate = false))
    (hskip2 : r.assistant_mask.sum ≠ 0)
    (hok : packStep seqLen truncate gidf { rows := cur :: done, draws := k } r
      = Except.ok s') :
    (s'.rows.length = done.length + 2 ↔
      seqLen < cur.token_ids.length +
        (if r.prompt_id ∈ cur.group_ids
         then r.without_prompt.token_ids.length else r.token_ids.length)) ∧
    (cur.token_ids.length +
        (if r.prompt_id ∈ cur.group_ids
         then r.without_prompt.token_ids.length else r.token_ids.length) ≤ seqLen →
      ∃ row, s'.rows = row :: done ∧
        row.token_ids = cur.token_ids ++
          (if r.prompt_id ∈ cur.group_ids then r.without_prompt else r).token_ids) := by
  simp only [packStep] at hok
  rw [if_neg hskip1, if_neg hskip2] at hok
  try dsimp only at hok
  by_cases hm : r.prompt_id ∈ cur.group_ids
  · rw [if_pos hm] at hok
    rw [if_pos hm, if_pos hm]
    by_cases hflush :
        seqLen < cur.token_ids.length + r.without_prompt.token_ids.length
    · rw [if_pos hflush] at hok
      try dsimp only at hok
      obtain ⟨row, _, hs'⟩ := exceptMap_ok_elim hok
      constructor
      · rw [hs']
        simp [hflush]
      · intro hle
        omega
    · rw [if_neg hflush] at hok
      try dsimp only at hok
      rw [if_pos hm] at hok
      obtain ⟨row, happ, hs'⟩ := exceptMap_ok_elim hok
      push_neg at hflush
      obtain ⟨lps, hlps, _, _, hrow⟩ := appendResult_ok_elim happ
      constructor
      · rw [hs']
        simp only [List.length_cons]
        constructor
        · intro hc
          omega
        · intro hc
          omega
      · intro _
        refine ⟨row, by rw [hs'], ?_⟩
        rw [hrow]
        cases truncate with
        | true =>
          rw [if_pos rfl]
          simp only [truncateRow, rawAppendRow]
          rw [List.take_of_length_le (by rw [List.length_append]; exact hflush)]
        | false =>
          rw [if_neg (by simp)]
          simp [rawAppendRow]
  · rw [if_neg hm] at hok
    rw [if_neg hm, if_neg hm]
    by_cases hflush : seqLen < cur.token_ids.length + r.token_ids.length
    · rw [if_pos hflush] at hok
      try dsimp only at hok
      obtain ⟨row, _, hs'⟩ := exceptMap_ok_elim hok
      constructor
      · rw [hs']
        simp [hflush]
      · intro hle
        omega
    · rw [if_neg hflush] at hok
      try dsimp only at hok
      rw [if_neg hm] at hok
      obtain ⟨row, happ, hs'⟩ := exceptMap_ok_elim hok
      push_neg at hflush
      obtain ⟨lps, hlps, _, _, hrow⟩ := appendResult_ok_elim happ
      constructor
      · rw [hs']
        simp only [List.length_cons]
        constructor
        · intro hc
          omega
        · intro hc
          omega
      · intro _
        refine ⟨row, by rw [hs'], ?_⟩
        rw [hrow]
        cases truncate with
        | true =>
          rw [if_pos rfl]
          simp only [truncateRow, rawAppendRow]
          rw [List.take_of_length_le (by rw [List.length_append]; exact hflush)]
        | false =>
          rw [if_neg (by simp)]
          simp [rawAppendRow]

/-- C7: when a result's `prompt_id` already appears among the group markers of
the current row and the prompt-stripped result still fits in that row, the
appended token span is exactly `without_prompt()`'s token ids (the shared
prefix is excluded), and the group markers written for it are the freshly
drawn candidate group id repeated — none of them equals the shared
`prompt_id`, the fresh draw being distinct from it. -/
theorem c7_prompt_dedup (seqLen : Nat) (truncate : Bool) (gidf : Nat → Int)
    (cur : Row) (done : List Row) (k : Nat) (r : TokenizedResult) (s' : PackState)
    (halign : cur.group_ids.length = cur.token_ids.length)
    (hmem : r.prompt_id ∈ cur.group_ids)
    (hskip1 : ¬(seqLen < r.token_ids.length ∧ truncate = false))
    (hskip2 : r.assistant_mask.sum ≠ 0)
    (hfit : cur.token_ids.length + r.without_prompt.token_ids.length ≤ seqLen)
    (hfresh : gidf k ≠ r.prompt_id)
    (hok : packStep seqLen truncate gidf { rows := cur :: done, draws := k } r
      = Except.ok s') :
    ∃ row, s'.rows = row :: done ∧
      row.token_ids = cur.token_ids ++ r.without_prompt.token_ids ∧
      row.group_ids = cur.group_ids ++
        List.replicate r.without_prompt.token_ids.length (gidf k) ∧
      ∀ g ∈ List.replicate r.without_prompt.token_ids.length (gidf k),
        g ≠ r.prompt_id := by
  simp only [packStep] at hok
  rw [if_neg hskip1, if_neg hskip2] at hok
  try dsimp only at hok
  rw [if_pos hmem, if_neg (by omega :
    ¬ seqLen < cur.token_ids.length + r.without_prompt.token_ids.length)] at hok
  try dsimp only at hok
  rw [if_pos hmem] at hok
  obtain ⟨row, happ, hs'⟩ := exceptMap_ok_elim hok
  obtain ⟨lps, hlps, _, _, hrow⟩ := appendResult_ok_elim happ
  have hwp_pl : r.without_prompt.prompt_length = 0 := rfl
  have hwp_pid : r.without_prompt.prompt_id = r.prompt_id := rfl
  have hgroup : (rawAppendRow (gidf k) cur r.without_prompt lps).group_ids
      = cur.group_ids ++
        List.replicate r.without_prompt.token_ids.length (gidf k) := by
    simp [rawAppendRow, hwp_pl]
  have htok : (rawAppendRow (gidf k) cur r.without_prompt lps).token_ids
      = cur.token_ids ++ r.without_prompt.token_ids := rfl
  refine ⟨row, by rw [hs'], ?_, ?_, ?_⟩
  · rw [hrow]
    cases truncate with
    | true =>
      rw [if_pos rfl]
      simp only [truncateRow, htok]
      rw [List.take_of_length_le (by rw [List.length_append]; exact hfit)]
    | false =>
      rw [if_neg (by simp), htok]
  · rw [hrow]
    cases truncate with
    | true =>
      rw [if_pos rfl]
      simp only [truncateRow, hgroup]
      rw [List.take_of_length_le (by
        rw [List.length_append, List.length_replicate, halign]
        exact hfit)]
    | false =>
      rw [if_neg (by simp), hgroup]
  · intro g hg
    rw [List.eq_of_mem_replicate hg]
    exact hfresh

/-- C2: for every batch of structurally well-formed results whose packed
output has at least one assistant-masked position, the mean of the `weights`
channel over the assistant-masked positions equals exactly 1 (the arithmetic
is exact over ℚ), and the weight at every non-assistant position is 0. -/
theorem c2_weight_normalization (results : List TokenizedResult) (seqLen : Nat)
    (padTokenId : Int) (truncate : Bool) (gidf : Nat → Int) (out : PackedTensors)
    (hwf : ∀ r ∈ results, WFResult r)
    (hok : packed_tensors_from_tokenized_results results seqLen padTokenId
      truncate gidf = Except.ok out)
    (hne : selectMasked out.assistant_mask out.weights ≠ []) :
    (selectMasked out.assistant_mask out.weights).sum
      / ((selectMasked out.assistant_mask out.weights).length : ℚ) = 1 ∧
    ∀ (i j : Nat) (brow : List Bool) (wrow : List ℚ),
      out.assistant_mask[i]? = some brow → out.weights[i]? = some wrow →
      brow[j]? = some false → wrow[j]? = some 0 := by
  obtain ⟨rows, hrows, hout⟩ := exceptMap_ok_elim hok
  obtain ⟨_, hinv⟩ := packRows_inv hwf hrows
  rw [hout] at hne ⊢
  exact ⟨finalize_mean_one hinv hne, fun i j brow wrow hm hw hb =>
    finalize_weights_unmasked hinv hm hw hb⟩

/-- C3 (amended): with truncation disabled, every row of the output stores
advantage exactly 0 at its last content (non-padding) position, whatever
scalar advantages the inputs carry. With truncation enabled this fails: a row
cut to `seqLen` loses the trailing zero (see the counterexample). -/
theorem c3_last_advantage_no_truncation (results : List TokenizedResult)
    (seqLen : Nat) (padTokenId : Int) (gidf : Nat → Int) (rows : List Row)
    (out : PackedTensors) (i : Nat) (row : Row)
    (hrows : packRows results seqLen false gidf = Except.ok rows)
    (hout : packed_tensors_from_tokenized_results results seqLen padTokenId
      false gidf = Except.ok out)
    (hi : rows[i]? = some row) (hne : row.advantages ≠ []) :
    row.advantages.getLast? = some 0 ∧
    out.advantages[i]? = some (padTo seqLen 0 row.advantages) ∧
    (padTo seqLen 0 row.advantages)[row.advantages.length - 1]? = some 0 := by
  have hlast : row.advantages.getLast? = some 0 := by
    rcases packRows_advLast hrows row (mem_of_getElem?_some hi) with h | h
    · exact absurd h hne
    · exact h
  have hout' : out = finalizeRows rows seqLen padTokenId := by
    obtain ⟨rows', hrows', houteq⟩ := exceptMap_ok_elim hout
    rw [hrows] at hrows'
    cases hrows'
    exact houteq
  refine ⟨hlast, ?_, ?_⟩
  · rw [hout']
    show (rows.map (fun r => padTo seqLen (0 : ℚ) r.advantages))[i]?
      = some (padTo seqLen 0 row.advantages)
    rw [List.getElem?_map, hi]
    rfl
  · have hpos : 0 < row.advantages.length := List.length_pos.mpr hne
    rw [padTo_getElem?_lt (by omega), ← List.getLast?_eq_getElem?]
    exact hlast

/-- C4 (amended): a batch that contributes no assistant-masked positions does
not make the call fail, and the returned weights are all exactly 0 — the
empty masked selection turns the in-place normalization into a no-op, so no
NaN or Inf appears. (The counterexample exhibits the call succeeding on an
empty batch instead of raising an "empty batch" error.) -/
theorem c4_no_assistant_all_zero_weights (results : List TokenizedResult)
    (seqLen : Nat) (padTokenId : Int) (truncate : Bool) (gidf : Nat → Int)
    (out : PackedTensors)
    (hok : packed_tensors_from_tokenized_results results seqLen padTokenId
      truncate gidf = Except.ok out)
    (hmask : ∀ brow ∈ out.assistant_mask, ∀ b ∈ brow, b = false) :
    ∀ wrow ∈ out.weights, ∀ x ∈ wrow, x = 0 := by
  obtain ⟨rows, hrows, hout⟩ := exceptMap_ok_elim hok
  rw [hout] at hmask ⊢
  exact finalize_weights_all_zero hmask

/-- C5: for every well-formed input, every setting of the parameters and any
id supply, all nine channels of the returned `PackedTensors` have the same
number `R ≥ 1` of rows, every row of every channel has length exactly
`seqLen`, and no packed row's content length exceeds `seqLen`. -/
theorem c5_shape_invariant (results : List TokenizedResult) (seqLen : Nat)
    (padTokenId : Int) (truncate : Bool) (gidf : Nat → Int) (rows : List Row)
    (out : PackedTensors)
    (hwf : ∀ r ∈ results, WFResult r)
    (hrows : packRows results seqLen truncate gidf = Except.ok rows)
    (hout : packed_tensors_from_tokenized_results results seqLen padTokenId
      truncate gidf = Except.ok out) :
    (1 ≤ out.tokens.length ∧
      out.group_ids.length = out.tokens.length ∧
      out.parent_ids.length = out.tokens.length ∧
      out.input_pos.length = out.tokens.length ∧
      out.assistant_mask.length = out.tokens.length ∧
      out.logprobs.length = out.tokens.length ∧
      out.advantages.length = out.tokens.length ∧
      out.weights.length = out.tokens.length ∧
      out.deferred.length = out.tokens.length) ∧
    ((∀ l ∈ out.tokens, l.length = seqLen) ∧
      (∀ l ∈ out.group_ids, l.length = seqLen) ∧
      (∀ l ∈ out.parent_ids, l.length = seqLen) ∧
      (∀ l ∈ out.input_pos, l.length = seqLen) ∧
      (∀ l ∈ out.assistant_mask, l.length = seqLen) ∧
      (∀ l ∈ out.logprobs, l.length = seqLen) ∧
      (∀ l ∈ out.advantages, l.length = seqLen) ∧
      (∀ l ∈ out.weights, l.length = seqLen) ∧
      (∀ l ∈ out.deferred, l.length = seqLen)) ∧
    ∀ row ∈ rows, row.token_ids.length ≤ seqLen := by
  obtain ⟨hrne, hinv⟩ := packRows_inv hwf hrows
  have hout' : out = finalizeRows rows seqLen padTokenId := by
    obtain ⟨rows', hrows', houteq⟩ := exceptMap_ok_elim hout
    rw [hrows] at hrows'
    cases hrows'
    exact houteq
  have htoklen : out.tokens.length = rows.length := by
    rw [hout']
    simp [finalizeRows]
  refine ⟨⟨?_, ?_, ?_, ?_, ?_, ?_, ?_, ?_, ?_⟩, ⟨?_, ?_, ?_, ?_, ?_, ?_, ?_, ?_, ?_⟩,
    fun row hrow => (hinv row hrow).2.1⟩
  · rw [htoklen]
    exact Nat.one_le_iff_ne_zero.mpr (by
      intro hc
      exact hrne (List.length_eq_zero.mp hc))
  · rw [htoklen, hout']
    simp [finalizeRows]
  · rw [htoklen, hout']
    simp [finalizeRows]
  · rw [htoklen, hout']
    simp [finalizeRows]
  · rw [htoklen, hout']
    simp [finalizeRows]
  · rw [htoklen, hout']
    simp [finalizeRows]
  · rw [htoklen, hout']
    simp [finalizeRows]
  · rw [htoklen, hout']
    rw [(finalize_weights_shape hinv).1]
  · rw [htoklen, hout']
    simp [finalizeRows]
  · rw [hout']
    intro l hl
    obtain ⟨row, hrow, rfl⟩ := List.mem_map.mp hl
    exact padTo_length (hinv row hrow).2.1
  · rw [hout']
    intro l hl
    obtain ⟨row, hrow, rfl⟩ := List.mem_map.mp hl
    obtain ⟨ha, hb, _⟩ := hinv row hrow
    exact padTo_length (by rw [ha.1]; exact hb)
  · rw [hout']
    intro l hl
    obtain ⟨row, hrow, rfl⟩ := List.mem_map.mp hl
    obtain ⟨ha, hb, _⟩ := hinv row hrow
    exact padTo_length (by rw [ha.2.1]; exact hb)
  · rw [hout']
    intro l hl
    obtain ⟨row, hrow, rfl⟩ := List.mem_map.mp hl
    obtain ⟨ha, hb, _⟩ := hinv row hrow
    exact padTo_length (by rw [ha.2.2.1]; exact hb)
  · rw [hout']
    exact (maskBool_shape hinv).2
  · rw [hout']
    intro l hl
    obtain ⟨row, hrow, rfl⟩ := List.mem_map.mp hl
    obtain ⟨ha, hb, _⟩ := hinv row hrow
    exact padTo_length (by rw [ha.2.2.2.2.1]; exact hb)
  · rw [hout']
    intro l hl
    obtain ⟨row, hrow, rfl⟩ := List.mem_map.mp hl
    obtain ⟨ha, hb, _⟩ := hinv row hrow
    exact padTo_length (by rw [ha.2.2.2.2.2.1]; exact hb)
  · rw [hout']
    exact (finalize_weights_shape hinv).2
  · rw [hout']
    intro l hl
    obtain ⟨row, hrow, rfl⟩ := List.mem_map.mp hl
    obtain ⟨ha, hb, _⟩ := hinv row hrow
    exact padTo_length (by rw [ha.2.2.2.2.2.2.2]; exact hb)

/-- C10: when a result carries a `token_logprobs` list whose every record has
the numeric log-probability 0.0 (present, not missing), the packed `logprobs`
channel stores NaN — modelled as `none` — at every position of the appended
span: a falsy 0.0 is replaced by NaN exactly like a missing value. -/
theorem c10_zero_logprob_becomes_nan (r : TokenizedResult) (seqLen : Nat)
    (padTokenId : Int) (truncate : Bool) (gidf : Nat → Int) (out : PackedTensors)
    (l : List TokenLogprob)
    (htl : r.token_logprobs = some l)
    (hfalsy : ∀ lp ∈ l, lp.logprob = some 0)
    (hok : packed_tensors_from_tokenized_results [r] seqLen padTokenId
      truncate gidf = Except.ok out) :
    ∀ lpRow ∈ out.logprobs, ∀ x ∈ lpRow, x = none := by
  obtain ⟨rows, hrows, hout⟩ := exceptMap_ok_elim hok
  have hfal : ∀ r' ∈ [r], ∀ tl, r'.token_logprobs = some tl →
      ∀ lp ∈ tl, orNaN lp.logprob = none := by
    intro r' hr' tl htl' lp hlp
    rw [List.mem_singleton.mp hr'] at htl'
    rw [htl] at htl'
    cases htl'
    rw [hfalsy lp hlp]
    simp [orNaN]
  have hnone := packRows_logprobs_none hfal hrows
  rw [hout]
  intro lpRow hlp x hx
  obtain ⟨row, hrow, rfl⟩ := List.mem_map.mp hlp
  rcases List.mem_append.mp hx with h' | h'
  · exact hnone row hrow x h'
  · exact List.eq_of_mem_replicate h'

/-- C1 (amended/corrected): the packer does not accept partially-available
logprobs. When a result's `token_logprobs` is present and non-empty but has
fewer records than the result has assistant-masked positions, the whole call
fails with the `AssertionError` of pack.py line 100 — the code asserts
`len(assistant_indices) <= len(token_logprobs)`, the reverse inequality of
the claim; only when there are at least as many records as assistant
positions does it overlay, aligning the trailing records with all assistant
positions. -/
theorem c1_partial_logprobs_rejected (r : TokenizedResult) (seqLen : Nat)
    (padTokenId : Int) (gidf : Nat → Int) (l : List TokenLogprob)
    (htl : r.token_logprobs = some l) (hne : l ≠ [])
    (hsum : r.assistant_mask.sum ≠ 0)
    (hfew : l.length < (assistantIndices r.assistant_mask).length) :
    packed_tensors_from_tokenized_results [r] seqLen padTokenId true gidf
      = Except.error "AssertionError" := by
  have hres : resolveLogprobs emptyRow r = Except.error "AssertionError" := by
    simp only [resolveLogprobs]
    rw [htl]
    dsimp only
    rw [if_neg (by simpa [List.isEmpty_iff] using hne)]
    simp only [overlayLogprobs]
    rw [if_neg (by omega)]
  have happ : appendResult seqLen true (gidf 0) emptyRow r
      = Except.error "AssertionError" := by
    simp only [appendResult]
    rw [hres]
    rfl
  have hstep : packStep seqLen true gidf { rows := [emptyRow], draws := 0 } r
      = Except.error "AssertionError" := by
    have hm : r.prompt_id ∉ emptyRow.group_ids := by simp [emptyRow]
    simp only [packStep]
    rw [if_neg (by simp), if_neg hsum]
    try dsimp only
    rw [if_neg hm]
    by_cases hflush : seqLen < emptyRow.token_ids.length + r.token_ids.length
    · rw [if_pos hflush]
      try dsimp only
      rw [if_neg hm, happ]
      rfl
    · rw [if_neg hflush]
      try dsimp only
      rw [if_neg hm, happ]
      rfl
  rw [packed_tensors_from_tokenized_results, packRows, List.foldlM_cons, hstep]
  rfl

/-- C1 counterexample: a result with two assistant-masked positions but a
single log-probability record is rejected with an `AssertionError` — it is
not accepted with the record aligned to the trailing assistant position, as
the claim states. -/
theorem c1_counterexample :
    packed_tensors_from_tokenized_results
        [{ reward := 0, advantage := 0, deferred := false,
           token_ids := [10, 11], input_pos := [0, 1],
           assistant_mask := [1, 1],
           token_logprobs := some [{ token := "a", logprob := some 1 }],
           prompt_id := 7, prompt_length := 0 }] 4 (-100) true (fun _ => 9)
      = Except.error "AssertionError" := by
  rfl

/-- C3 counterexample: with truncation enabled, a single result of length 3
and scalar advantage 5 packed at `seq_len = 2` yields a truncated row whose
content advantages are `[5, 5]` — the forced trailing 0 sat at position 2 and
was cut off, so the advantage at the last non-padding position is 5, not 0.
(The leading empty row is the initial open row, flushed before appending.) -/
theorem c3_counterexample :
    Except.map (fun rows => rows.map Row.advantages)
        (packRows
          [{ reward := 0, advantage := 5, deferred := false,
             token_ids := [10, 11, 12], input_pos := [0, 1, 2],
             assistant_mask := [0, 1, 1], token_logprobs := none,
             prompt_id := 7, prompt_length := 1 }] 2 true (fun _ => 9))
      = Except.ok [[], [5, 5]] ∧
    Except.map PackedTensors.advantages
        (packed_tensors_from_tokenized_results
          [{ reward := 0, advantage := 5, deferred := false,
             token_ids := [10, 11, 12], input_pos := [0, 1, 2],
             assistant_mask := [0, 1, 1], token_logprobs := none,
             prompt_id := 7, prompt_length := 1 }] 2 (-100) true (fun _ => 9))
      = Except.ok [[0, 0], [5, 5]] ∧
    (5 : ℚ) ≠ 0 := by
  refine ⟨rfl, rfl, by norm_num⟩

/-- C4 counterexample: on an empty batch — no assistant-masked positions at
all — the function does not fail with an "empty batch" error: it returns a
`PackedTensors` of one all-padding row whose weights are all zeros. -/
theorem c4_counterexample :
    packed_tensors_from_tokenized_results [] 3 (-100) true (fun _ => 9)
      = Except.ok
          { tokens := [[-100, -100, -100]], group_ids := [[-1, -1, -1]],
            parent_ids := [[-1, -1, -1]], input_pos := [[0, 0, 0]],
            assistant_mask := [[false, false, false]],
            logprobs := [[none, none, none]], advantages := [[0, 0, 0]],
            weights := [[0, 0, 0]], deferred := [[false, false, false]] } := by
  rfl

/-- Witness for C1 at a concrete input: a result with two assistant positions
and one log-probability record makes the packer fail with `AssertionError`. -/
theorem c1_witness :
    (⟨0, 0, false, [10, 11], [0, 1], [1, 1], some [⟨"a", some 1⟩], 7, 0⟩ : TokenizedResult).token_logprobs = some [⟨"a", some 1⟩] ∧
    ([⟨"a", some 1⟩] : List TokenLogprob) ≠ [] ∧
    (⟨0, 0, false, [10, 11], [0, 1], [1, 1], some [⟨"a", some 1⟩], 7, 0⟩ : TokenizedResult).assistant_mask.sum ≠ 0 ∧
    ([⟨"a", some 1⟩] : List TokenLogprob).length <
      (assistantIndices (⟨0, 0, false, [10, 11], [0, 1], [1, 1], some [⟨"a", some 1⟩], 7, 0⟩ : TokenizedResult).assistant_mask).length ∧
    packed_tensors_from_tokenized_results
        [⟨0, 0, false, [10, 11], [0, 1], [1, 1], some [⟨"a", some 1⟩], 7, 0⟩] 5 (-100) true (fun _ => 9)
      = Except.error "AssertionError" :=
  ⟨rfl, by decide, by decide, by decide,
    c1_partial_logprobs_rejected
      ⟨0, 0, false, [10, 11], [0, 1], [1, 1], some [⟨"a", some 1⟩], 7, 0⟩ 5 (-100) (fun _ => 9)
      [⟨"a", some 1⟩] rfl (by decide) (by decide) (by decide)⟩

/-- Witness for C2 at a concrete input: one result with a single assistant
token; the normalized masked weights have mean exactly 1. -/
theorem c2_witness :
    (∀ r ∈ [(⟨0, 0, false, [1, 2], [0, 1], [0, 1], none, 5, 1⟩ : TokenizedResult)], WFResult r) ∧
    packed_tensors_from_tokenized_results
        [⟨0, 0, false, [1, 2], [0, 1], [0, 1], none, 5, 1⟩] 4 (-100) true (fun _ => 9)
      = Except.ok (finalizeRows [⟨[1, 2], [5, 9], [5, 5], [0, 1], [0, 1], [none, none], [0, 0], [1 / ((1 : Int) : ℚ), 1 / ((1 : Int) : ℚ)], [false, false]⟩] 4 (-100)) ∧
    selectMasked (finalizeRows [⟨[1, 2], [5, 9], [5, 5], [0, 1], [0, 1], [none, none], [0, 0], [1 / ((1 : Int) : ℚ), 1 / ((1 : Int) : ℚ)], [false, false]⟩] 4 (-100)).assistant_mask (finalizeRows [⟨[1, 2], [5, 9], [5, 5], [0, 1], [0, 1], [none, none], [0, 0], [1 / ((1 : Int) : ℚ), 1 / ((1 : Int) : ℚ)], [false, false]⟩] 4 (-100)).weights ≠ [] ∧
    ((selectMasked (finalizeRows [⟨[1, 2], [5, 9], [5, 5], [0, 1], [0, 1], [none, none], [0, 0], [1 / ((1 : Int) : ℚ), 1 / ((1 : Int) : ℚ)], [false, false]⟩] 4 (-100)).assistant_mask (finalizeRows [⟨[1, 2], [5, 9], [5, 5], [0, 1], [0, 1], [none, none], [0, 0], [1 / ((1 : Int) : ℚ), 1 / ((1 : Int) : ℚ)], [false, false]⟩] 4 (-100)).weights).sum
        / ((selectMasked (finalizeRows [⟨[1, 2], [5, 9], [5, 5], [0, 1], [0, 1], [none, none], [0, 0], [1 / ((1 : Int) : ℚ), 1 / ((1 : Int) : ℚ)], [false, false]⟩] 4 (-100)).assistant_mask (finalizeRows [⟨[1, 2], [5, 9], [5, 5], [0, 1], [0, 1], [none, none], [0, 0], [1 / ((1 : Int) : ℚ), 1 / ((1 : Int) : ℚ)], [false, false]⟩] 4 (-100)).weights).length : ℚ) = 1 ∧
      ∀ (i j : Nat) (brow : List Bool) (wrow : List ℚ),
        (finalizeRows [⟨[1, 2], [5, 9], [5, 5], [0, 1], [0, 1], [none, none], [0, 0], [1 / ((1 : Int) : ℚ), 1 / ((1 : Int) : ℚ)], [false, false]⟩] 4 (-100)).assistant_mask[i]? = some brow →
        (finalizeRows [⟨[1, 2], [5, 9], [5, 5], [0, 1], [0, 1], [none, none], [0, 0], [1 / ((1 : Int) : ℚ), 1 / ((1 : Int) : ℚ)], [false, false]⟩] 4 (-100)).weights[i]? = some wrow →
        brow[j]? = some false → wrow[j]? = some 0) :=
  ⟨by decide, rfl, by decide,
    c2_weight_normalization [⟨0, 0, false, [1, 2], [0, 1], [0, 1], none, 5, 1⟩] 4 (-100) true (fun _ => 9)
      (finalizeRows [⟨[1, 2], [5, 9], [5, 5], [0, 1], [0, 1], [none, none], [0, 0], [1 / ((1 : Int) : ℚ), 1 / ((1 : Int) : ℚ)], [false, false]⟩] 4 (-100)) (by decide) rfl (by decide)⟩

/-- Witness for C3 (amended) at a concrete input with truncation disabled:
the single packed row carries advantages `[3, 0]`, zero at its last content
position. -/
theorem c3_witness :
    packRows [⟨0, 3, false, [1, 2], [0, 1], [0, 1], none, 5, 1⟩] 4 false (fun _ => 9)
      = Except.ok [⟨[1, 2], [5, 9], [5, 5], [0, 1], [0, 1], [none, none], [3, 0], [1 / ((1 : Int) : ℚ), 1 / ((1 : Int) : ℚ)], [false, false]⟩] ∧
    packed_tensors_from_tokenized_results
        [⟨0, 3, false, [1, 2], [0, 1], [0, 1], none, 5, 1⟩] 4 (-100) false (fun _ => 9)
      = Except.ok (finalizeRows [⟨[1, 2], [5, 9], [5, 5], [0, 1], [0, 1], [none, none], [3, 0], [1 / ((1 : Int) : ℚ), 1 / ((1 : Int) : ℚ)], [false, false]⟩] 4 (-100)) ∧
    ([⟨[1, 2], [5, 9], [5, 5], [0, 1], [0, 1], [none, none], [3, 0], [1 / ((1 : Int) : ℚ), 1 / ((1 : Int) : ℚ)], [false, false]⟩] : List Row)[0]? = some ⟨[1, 2], [5, 9], [5, 5], [0, 1], [0, 1], [none, none], [3, 0], [1 / ((1 : Int) : ℚ), 1 / ((1 : Int) : ℚ)], [false, false]⟩ ∧
    (⟨[1, 2], [5, 9], [5, 5], [0, 1], [0, 1], [none, none], [3, 0], [1 / ((1 : Int) : ℚ), 1 / ((1 : Int) : ℚ)], [false, false]⟩ : Row).advantages ≠ [] ∧
    ((⟨[1, 2], [5, 9], [5, 5], [0, 1], [0, 1], [none, none], [3, 0], [1 / ((1 : Int) : ℚ), 1 / ((1 : Int) : ℚ)], [false, false]⟩ : Row).advantages.getLast? = some 0 ∧
      (finalizeRows [⟨[1, 2], [5, 9], [5, 5], [0, 1], [0, 1], [none, none], [3, 0], [1 / ((1 : Int) : ℚ), 1 / ((1 : Int) : ℚ)], [false, false]⟩] 4 (-100)).advantages[0]? = some (padTo 4 0 (⟨[1, 2], [5, 9], [5, 5], [0, 1], [0, 1], [none, none], [3, 0], [1 / ((1 : Int) : ℚ), 1 / ((1 : Int) : ℚ)], [false, false]⟩ : Row).advantages) ∧
      (padTo 4 0 (⟨[1, 2], [5, 9], [5, 5], [0, 1], [0, 1], [none, none], [3, 0], [1 / ((1 : Int) : ℚ), 1 / ((1 : Int) : ℚ)], [false, false]⟩ : Row).advantages)[(⟨[1, 2], [5, 9], [5, 5], [0, 1], [0, 1], [none, none], [3, 0], [1 / ((1 : Int) : ℚ), 1 / ((1 : Int) : ℚ)], [false, false]⟩ : Row).advantages.length - 1]?
        = some 0) :=
  ⟨rfl, rfl, rfl, by decide,
    c3_last_advantage_no_truncation [⟨0, 3, false, [1, 2], [0, 1], [0, 1], none, 5, 1⟩] 4 (-100) (fun _ => 9)
      [⟨[1, 2], [5, 9], [5, 5], [0, 1], [0, 1], [none, none], [3, 0], [1 / ((1 : Int) : ℚ), 1 / ((1 : Int) : ℚ)], [false, false]⟩] (finalizeRows [⟨[1, 2], [5, 9], [5, 5], [0, 1], [0, 1], [none, none], [3, 0], [1 / ((1 : Int) : ℚ), 1 / ((1 : Int) : ℚ)], [false, false]⟩] 4 (-100)) 0 ⟨[1, 2], [5, 9], [5, 5], [0, 1], [0, 1], [none, none], [3, 0], [1 / ((1 : Int) : ℚ), 1 / ((1 : Int) : ℚ)], [false, false]⟩ rfl rfl rfl (by decide)⟩

/-- Witness for C4 (amended) at a concrete input: the empty batch succeeds
and every weight of the returned tensors is 0. -/
theorem c4_witness :
    packed_tensors_from_tokenized_results [] 3 (-100) true (fun _ => 9)
      = Except.ok (finalizeRows [emptyRow] 3 (-100)) ∧
    (∀ brow ∈ (finalizeRows [emptyRow] 3 (-100)).assistant_mask, ∀ b ∈ brow, b = false) ∧
    ∀ wrow ∈ (finalizeRows [emptyRow] 3 (-100)).weights, ∀ x ∈ wrow, x = 0 :=
  ⟨rfl, by decide,
    c4_no_assistant_all_zero_weights [] 3 (-100) true (fun _ => 9)
      (finalizeRows [emptyRow] 3 (-100)) rfl (by decide)⟩

/-- Witness for C5 at a concrete input: all nine channels share shape
`(1, 4)` and the packed row's content fits in `seq_len`. -/
theorem c5_witness :
    (∀ r ∈ [(⟨0, 0, false, [1, 2], [0, 1], [0, 1], none, 5, 1⟩ : TokenizedResult)], WFResult r) ∧
    packRows [⟨0, 0, false, [1, 2], [0, 1], [0, 1], none, 5, 1⟩] 4 true (fun _ => 9)
      = Except.ok [⟨[1, 2], [5, 9], [5, 5], [0, 1], [0, 1], [none, none], [0, 0], [1 / ((1 : Int) : ℚ), 1 / ((1 : Int) : ℚ)], [false, false]⟩] ∧
    packed_tensors_from_tokenized_results
        [⟨0, 0, false, [1, 2], [0, 1], [0, 1], none, 5, 1⟩] 4 (-100) true (fun _ => 9)
      = Except.ok (finalizeRows [⟨[1, 2], [5, 9], [5, 5], [0, 1], [0, 1], [none, none], [0, 0], [1 / ((1 : Int) : ℚ), 1 / ((1 : Int) : ℚ)], [false, false]⟩] 4 (-100)) ∧
    ((1 ≤ (finalizeRows [⟨[1, 2], [5, 9], [5, 5], [0, 1], [0, 1], [none, none], [0, 0], [1 / ((1 : Int) : ℚ), 1 / ((1 : Int) : ℚ)], [false, false]⟩] 4 (-100)).tokens.length ∧
      (finalizeRows [⟨[1, 2], [5, 9], [5, 5], [0, 1], [0, 1], [none, none], [0, 0], [1 / ((1 : Int) : ℚ), 1 / ((1 : Int) : ℚ)], [false, false]⟩] 4 (-100)).group_ids.length = (finalizeRows [⟨[1, 2], [5, 9], [5, 5], [0, 1], [0, 1], [none, none], [0, 0], [1 / ((1 : Int) : ℚ), 1 / ((1 : Int) : ℚ)], [false, false]⟩] 4 (-100)).tokens.length ∧
      (finalizeRows [⟨[1, 2], [5, 9], [5, 5], [0, 1], [0, 1], [none, none], [0, 0], [1 / ((1 : Int) : ℚ), 1 / ((1 : Int) : ℚ)], [false, false]⟩] 4 (-100)).parent_ids.length = (finalizeRows [⟨[1, 2], [5, 9], [5, 5], [0, 1], [0, 1], [none, none], [0, 0], [1 / ((1 : Int) : ℚ), 1 / ((1 : Int) : ℚ)], [false, false]⟩] 4 (-100)).tokens.length ∧
      (finalizeRows [⟨[1, 2], [5, 9], [5, 5], [0, 1], [0, 1], [none, none], [0, 0], [1 / ((1 : Int) : ℚ), 1 / ((1 : Int) : ℚ)], [false, false]⟩] 4 (-100)).input_pos.length = (finalizeRows [⟨[1, 2], [5, 9], [5, 5], [0, 1], [0, 1], [none, none], [0, 0], [1 / ((1 : Int) : ℚ), 1 / ((1 : Int) : ℚ)], [false, false]⟩] 4 (-100)).tokens.length ∧
      (finalizeRows [⟨[1, 2], [5, 9], [5, 5], [0, 1], [0, 1], [none, none], [0, 0], [1 / ((1 : Int) : ℚ), 1 / ((1 : Int) : ℚ)], [false, false]⟩] 4 (-100)).assistant_mask.length = (finalizeRows [⟨[1, 2], [5, 9], [5, 5], [0, 1], [0, 1], [none, none], [0, 0], [1 / ((1 : Int) : ℚ), 1 / ((1 : Int) : ℚ)], [false, false]⟩] 4 (-100)).tokens.length ∧
      (finalizeRows [⟨[1, 2], [5, 9], [5, 5], [0, 1], [0, 1], [none, none], [0, 0], [1 / ((1 : Int) : ℚ), 1 / ((1 : Int) : ℚ)], [false, false]⟩] 4 (-100)).logprobs.length = (finalizeRows [⟨[1, 2], [5, 9], [5, 5], [0, 1], [0, 1], [none, none], [0, 0], [1 / ((1 : Int) : ℚ), 1 / ((1 : Int) : ℚ)], [false, false]⟩] 4 (-100)).tokens.length ∧
      (finalizeRows [⟨[1, 2], [5, 9], [5, 5], [0, 1], [0, 1], [none, none], [0, 0], [1 / ((1 : Int) : ℚ), 1 / ((1 : Int) : ℚ)], [false, false]⟩] 4 (-100)).advantages.length = (finalizeRows [⟨[1, 2], [5, 9], [5, 5], [0, 1], [0, 1], [none, none], [0, 0], [1 / ((1 : Int) : ℚ), 1 / ((1 : Int) : ℚ)], [false, false]⟩] 4 (-100)).tokens.length ∧
      (finalizeRows [⟨[1, 2], [5, 9], [5, 5], [0, 1], [0, 1], [none, none], [0, 0], [1 / ((1 : Int) : ℚ), 1 / ((1 : Int) : ℚ)], [false, false]⟩] 4 (-100)).weights.length = (finalizeRows [⟨[1, 2], [5, 9], [5, 5], [0, 1], [0, 1], [none, none], [0, 0], [1 / ((1 : Int) : ℚ), 1 / ((1 : Int) : ℚ)], [false, false]⟩] 4 (-100)).tokens.length ∧
      (finalizeRows [⟨[1, 2], [5, 9], [5, 5], [0, 1], [0, 1], [none, none], [0, 0], [1 / ((1 : Int) : ℚ), 1 / ((1 : Int) : ℚ)], [false, false]⟩] 4 (-100)).deferred.length = (finalizeRows [⟨[1, 2], [5, 9], [5, 5], [0, 1], [0, 1], [none, none], [0, 0], [1 / ((1 : Int) : ℚ), 1 / ((1 : Int) : ℚ)], [false, false]⟩] 4 (-100)).tokens.length) ∧
    ((∀ l ∈ (finalizeRows [⟨[1, 2], [5, 9], [5, 5], [0, 1], [0, 1], [none, none], [0, 0], [1 / ((1 : Int) : ℚ), 1 / ((1 : Int) : ℚ)], [false, false]⟩] 4 (-100)).tokens, l.length = 4) ∧
      (∀ l ∈ (finalizeRows [⟨[1, 2], [5, 9], [5, 5], [0, 1], [0, 1], [none, none], [0, 0], [1 / ((1 : Int) : ℚ), 1 / ((1 : Int) : ℚ)], [false, false]⟩] 4 (-100)).group_ids, l.length = 4) ∧
      (∀ l ∈ (finalizeRows [⟨[1, 2], [5, 9], [5, 5], [0, 1], [0, 1], [none, none], [0, 0], [1 / ((1 : Int) : ℚ), 1 / ((1 : Int) : ℚ)], [false, false]⟩] 4 (-100)).parent_ids, l.length = 4) ∧
      (∀ l ∈ (finalizeRows [⟨[1, 2], [5, 9], [5, 5], [0, 1], [0, 1], [none, none], [0, 0], [1 / ((1 : Int) : ℚ), 1 / ((1 : Int) : ℚ)], [false, false]⟩] 4 (-100)).input_pos, l.length = 4) ∧
      (∀ l ∈ (finalizeRows [⟨[1, 2], [5, 9], [5, 5], [0, 1], [0, 1], [none, none], [0, 0], [1 / ((1 : Int) : ℚ), 1 / ((1 : Int) : ℚ)], [false, false]⟩] 4 (-100)).assistant_mask, l.length = 4) ∧
      (∀ l ∈ (finalizeRows [⟨[1, 2], [5, 9], [5, 5], [0, 1], [0, 1], [none, none], [0, 0], [1 / ((1 : Int) : ℚ), 1 / ((1 : Int) : ℚ)], [false, false]⟩] 4 (-100)).logprobs, l.length = 4) ∧
      (∀ l ∈ (finalizeRows [⟨[1, 2], [5, 9], [5, 5], [0, 1], [0, 1], [none, none], [0, 0], [1 / ((1 : Int) : ℚ), 1 / ((1 : Int) : ℚ)], [false, false]⟩] 4 (-100)).advantages, l.length = 4) ∧
      (∀ l ∈ (finalizeRows [⟨[1, 2], [5, 9], [5, 5], [0, 1], [0, 1], [none, none], [0, 0], [1 / ((1 : Int) : ℚ), 1 / ((1 : Int) : ℚ)], [false, false]⟩] 4 (-100)).weights, l.length = 4) ∧
      (∀ l ∈ (finalizeRows [⟨[1, 2], [5, 9], [5, 5], [0, 1], [0, 1], [none, none], [0, 0], [1 / ((1 : Int) : ℚ), 1 / ((1 : Int) : ℚ)], [false, false]⟩] 4 (-100)).deferred, l.length = 4)) ∧
    ∀ row ∈ [(⟨[1, 2], [5, 9], [5, 5], [0, 1], [0, 1], [none, none], [0, 0], [1 / ((1 : Int) : ℚ), 1 / ((1 : Int) : ℚ)], [false, false]⟩ : Row)], row.token_ids.length ≤ 4) :=
  ⟨by decide, rfl, rfl,
    c5_shape_invariant [⟨0, 0, false, [1, 2], [0, 1], [0, 1], none, 5, 1⟩] 4 (-100) true (fun _ => 9)
      [⟨[1, 2], [5, 9], [5, 5], [0, 1], [0, 1], [none, none], [0, 0], [1 / ((1 : Int) : ℚ), 1 / ((1 : Int) : ℚ)], [false, false]⟩] (finalizeRows [⟨[1, 2], [5, 9], [5, 5], [0, 1], [0, 1], [none, none], [0, 0], [1 / ((1 : Int) : ℚ), 1 / ((1 : Int) : ℚ)], [false, false]⟩] 4 (-100)) (by decide) rfl rfl⟩

/-- Witness for C6 at a concrete input: a result whose effective length
exactly fills the row (2 tokens into `seq_len = 2`) is appended to the
current row, and no fresh row is opened. -/
theorem c6_witness :
    (¬(2 < (⟨0, 0, false, [1, 2], [0, 1], [0, 1], none, 5, 1⟩ : TokenizedResult).token_ids.length ∧ true = false)) ∧
    (⟨0, 0, false, [1, 2], [0, 1], [0, 1], none, 5, 1⟩ : TokenizedResult).assistant_mask.sum ≠ 0 ∧
    packStep 2 true (fun _ => 9) (⟨[emptyRow], 0⟩ : PackState) ⟨0, 0, false, [1, 2], [0, 1], [0, 1], none, 5, 1⟩
      = Except.ok (⟨[⟨[1, 2], [5, 9], [5, 5], [0, 1], [0, 1], [none, none], [0, 0], [1 / ((1 : Int) : ℚ), 1 / ((1 : Int) : ℚ)], [false, false]⟩], 1⟩ : PackState) ∧
    (((⟨[⟨[1, 2], [5, 9], [5, 5], [0, 1], [0, 1], [none, none], [0, 0], [1 / ((1 : Int) : ℚ), 1 / ((1 : Int) : ℚ)], [false, false]⟩], 1⟩ : PackState).rows.length = ([] : List Row).length + 2 ↔
        2 < emptyRow.token_ids.length +
          (if (⟨0, 0, false, [1, 2], [0, 1], [0, 1], none, 5, 1⟩ : TokenizedResult).prompt_id ∈ emptyRow.group_ids
           then (⟨0, 0, false, [1, 2], [0, 1], [0, 1], none, 5, 1⟩ : TokenizedResult).without_prompt.token_ids.length
           else (⟨0, 0, false, [1, 2], [0, 1], [0, 1], none, 5, 1⟩ : TokenizedResult).token_ids.length)) ∧
      (emptyRow.token_ids.length +
          (if (⟨0, 0, false, [1, 2], [0, 1], [0, 1], none, 5, 1⟩ : TokenizedResult).prompt_id ∈ emptyRow.group_ids
           then (⟨0, 0, false, [1, 2], [0, 1], [0, 1], none, 5, 1⟩ : TokenizedResult).without_prompt.token_ids.length
           else (⟨0, 0, false, [1, 2], [0, 1], [0, 1], none, 5, 1⟩ : TokenizedResult).token_ids.length) ≤ 2 →
        ∃ row, (⟨[⟨[1, 2], [5, 9], [5, 5], [0, 1], [0, 1], [none, none], [0, 0], [1 / ((1 : Int) : ℚ), 1 / ((1 : Int) : ℚ)], [false, false]⟩], 1⟩ : PackState).rows = row :: [] ∧
          row.token_ids = emptyRow.token_ids ++
            (if (⟨0, 0, false, [1, 2], [0, 1], [0, 1], none, 5, 1⟩ : TokenizedResult).prompt_id ∈ emptyRow.group_ids
             then (⟨0, 0, false, [1, 2], [0, 1], [0, 1], none, 5, 1⟩ : TokenizedResult).without_prompt
             else (⟨0, 0, false, [1, 2], [0, 1], [0, 1], none, 5, 1⟩ : TokenizedResult)).token_ids)) :=
  ⟨by decide, by decide, rfl,
    c6_flush_iff 2 true (fun _ => 9) emptyRow [] 0 ⟨0, 0, false, [1, 2], [0, 1], [0, 1], none, 5, 1⟩
      (⟨[⟨[1, 2], [5, 9], [5, 5], [0, 1], [0, 1], [none, none], [0, 0], [1 / ((1 : Int) : ℚ), 1 / ((1 : Int) : ℚ)], [false, false]⟩], 1⟩ : PackState) (by decide) (by decide) rfl⟩

/-- Witness for C7 at a concrete input: the current row already carries the
shared `prompt_id` 5 among its group markers; the second sibling is appended
in `without_prompt()` form and its group markers are the fresh id 11 ≠ 5. -/
theorem c7_witness :
    ((⟨[1, 2], [5, 9], [5, 5], [0, 1], [0, 1], [none, none], [0, 0], [1 / ((1 : Int) : ℚ), 1 / ((1 : Int) : ℚ)], [false, false]⟩ : Row).group_ids.length = (⟨[1, 2], [5, 9], [5, 5], [0, 1], [0, 1], [none, none], [0, 0], [1 / ((1 : Int) : ℚ), 1 / ((1 : Int) : ℚ)], [false, false]⟩ : Row).token_ids.length) ∧
    ((⟨0, 0, false, [1, 2], [0, 1], [0, 1], none, 5, 1⟩ : TokenizedResult).prompt_id ∈ (⟨[1, 2], [5, 9], [5, 5], [0, 1], [0, 1], [none, none], [0, 0], [1 / ((1 : Int) : ℚ), 1 / ((1 : Int) : ℚ)], [false, false]⟩ : Row).group_ids) ∧
    (¬(4 < (⟨0, 0, false, [1, 2], [0, 1], [0, 1], none, 5, 1⟩ : TokenizedResult).token_ids.length ∧ true = false)) ∧
    (⟨0, 0, false, [1, 2], [0, 1], [0, 1], none, 5, 1⟩ : TokenizedResult).assistant_mask.sum ≠ 0 ∧
    ((⟨[1, 2], [5, 9], [5, 5], [0, 1], [0, 1], [none, none], [0, 0], [1 / ((1 : Int) : ℚ), 1 / ((1 : Int) : ℚ)], [false, false]⟩ : Row).token_ids.length +
      (⟨0, 0, false, [1, 2], [0, 1], [0, 1], none, 5, 1⟩ : TokenizedResult).without_prompt.token_ids.length ≤ 4) ∧
    ((fun _ : Nat => (11 : Int)) 1 ≠ (⟨0, 0, false, [1, 2], [0, 1], [0, 1], none, 5, 1⟩ : TokenizedResult).prompt_id) ∧
    packStep 4 true (fun _ => 11) (⟨[⟨[1, 2], [5, 9], [5, 5], [0, 1], [0, 1], [none, none], [0, 0], [1 / ((1 : Int) : ℚ), 1 / ((1 : Int) : ℚ)], [false, false]⟩], 1⟩ : PackState) ⟨0, 0, false, [1, 2], [0, 1], [0, 1], none, 5, 1⟩
      = Except.ok (⟨[⟨[1, 2, 2], [5, 9, 11], [5, 5, 5], [0, 1, 1], [0, 1, 1], [none, none, none], [0, 0, 0], [1 / ((1 : Int) : ℚ), 1 / ((1 : Int) : ℚ), 1 / ((1 : Int) : ℚ)], [false, false, false]⟩], 2⟩ : PackState) ∧
    ∃ row, (⟨[⟨[1, 2, 2], [5, 9, 11], [5, 5, 5], [0, 1, 1], [0, 1, 1], [none, none, none], [0, 0, 0], [1 / ((1 : Int) : ℚ), 1 / ((1 : Int) : ℚ), 1 / ((1 : Int) : ℚ)], [false, false, false]⟩], 2⟩ : PackState).rows = row :: [] ∧
      row.token_ids = (⟨[1, 2], [5, 9], [5, 5], [0, 1], [0, 1], [none, none], [0, 0], [1 / ((1 : Int) : ℚ), 1 / ((1 : Int) : ℚ)], [false, false]⟩ : Row).token_ids ++
        (⟨0, 0, false, [1, 2], [0, 1], [0, 1], none, 5, 1⟩ : TokenizedResult).without_prompt.token_ids ∧
      row.group_ids = (⟨[1, 2], [5, 9], [5, 5], [0, 1], [0, 1], [none, none], [0, 0], [1 / ((1 : Int) : ℚ), 1 / ((1 : Int) : ℚ)], [false, false]⟩ : Row).group_ids ++
        List.replicate (⟨0, 0, false, [1, 2], [0, 1], [0, 1], none, 5, 1⟩ : TokenizedResult).without_prompt.token_ids.length
          ((fun _ : Nat => (11 : Int)) 1) ∧
      ∀ g ∈ List.replicate
          (⟨0, 0, false, [1, 2], [0, 1], [0, 1], none, 5, 1⟩ : TokenizedResult).without_prompt.token_ids.length
          ((fun _ : Nat => (11 : Int)) 1),
        g ≠ (⟨0, 0, false, [1, 2], [0, 1], [0, 1], none, 5, 1⟩ : TokenizedResult).prompt_id :=
  ⟨by decide, by decide, by decide, by decide, by decide, by decide, rfl,
    c7_prompt_dedup 4 true (fun _ => 11) ⟨[1, 2], [5, 9], [5, 5], [0, 1], [0, 1], [none, none], [0, 0], [1 / ((1 : Int) : ℚ), 1 / ((1 : Int) : ℚ)], [false, false]⟩ [] 1 ⟨0, 0, false, [1, 2], [0, 1], [0, 1], none, 5, 1⟩
      (⟨[⟨[1, 2, 2], [5, 9, 11], [5, 5, 5], [0, 1, 1], [0, 1, 1], [none, none, none], [0, 0, 0], [1 / ((1 : Int) : ℚ), 1 / ((1 : Int) : ℚ), 1 / ((1 : Int) : ℚ)], [false, false, false]⟩], 2⟩ : PackState)
      (by decide) (by decide) (by decide) (by decide) (by decide) (by decide)
      rfl⟩

/-- Witness for C9 (amended) at a concrete input: a `(2, 2)` tensor dict
survives the store round trip exactly. -/
theorem c9_witness :
    (⟨⟨[2, 2], [1, 2, 3, 4]⟩, ⟨[2, 2], [1, 1, 2, 2]⟩, ⟨[2, 2], [1, 1, 2, 2]⟩, ⟨[2, 2], [0, 1, 0, 1]⟩, ⟨[2, 2], [false, true, false, true]⟩, ⟨[2, 2], [none, none, none, none]⟩, ⟨[2, 2], [0, 0, 0, 0]⟩, ⟨[2, 2], [0, 1, 0, 1]⟩, ⟨[2, 2], [false, false, false, false]⟩⟩ : TensorDict).tokens.shape = [2, 2] ∧
    (⟨⟨[2, 2], [1, 2, 3, 4]⟩, ⟨[2, 2], [1, 1, 2, 2]⟩, ⟨[2, 2], [1, 1, 2, 2]⟩, ⟨[2, 2], [0, 1, 0, 1]⟩, ⟨[2, 2], [false, true, false, true]⟩, ⟨[2, 2], [none, none, none, none]⟩, ⟨[2, 2], [0, 0, 0, 0]⟩, ⟨[2, 2], [0, 1, 0, 1]⟩, ⟨[2, 2], [false, false, false, false]⟩⟩ : TensorDict).group_ids.shape = [2, 2] ∧
    (⟨⟨[2, 2], [1, 2, 3, 4]⟩, ⟨[2, 2], [1, 1, 2, 2]⟩, ⟨[2, 2], [1, 1, 2, 2]⟩, ⟨[2, 2], [0, 1, 0, 1]⟩, ⟨[2, 2], [false, true, false, true]⟩, ⟨[2, 2], [none, none, none, none]⟩, ⟨[2, 2], [0, 0, 0, 0]⟩, ⟨[2, 2], [0, 1, 0, 1]⟩, ⟨[2, 2], [false, false, false, false]⟩⟩ : TensorDict).parent_ids.shape = [2, 2] ∧
    (⟨⟨[2, 2], [1, 2, 3, 4]⟩, ⟨[2, 2], [1, 1, 2, 2]⟩, ⟨[2, 2], [1, 1, 2, 2]⟩, ⟨[2, 2], [0, 1, 0, 1]⟩, ⟨[2, 2], [false, true, false, true]⟩, ⟨[2, 2], [none, none, none, none]⟩, ⟨[2, 2], [0, 0, 0, 0]⟩, ⟨[2, 2], [0, 1, 0, 1]⟩, ⟨[2, 2], [false, false, false, false]⟩⟩ : TensorDict).input_pos.shape = [2, 2] ∧
    (⟨⟨[2, 2], [1, 2, 3, 4]⟩, ⟨[2, 2], [1, 1, 2, 2]⟩, ⟨[2, 2], [1, 1, 2, 2]⟩, ⟨[2, 2], [0, 1, 0, 1]⟩, ⟨[2, 2], [false, true, false, true]⟩, ⟨[2, 2], [none, none, none, none]⟩, ⟨[2, 2], [0, 0, 0, 0]⟩, ⟨[2, 2], [0, 1, 0, 1]⟩, ⟨[2, 2], [false, false, false, false]⟩⟩ : TensorDict).assistant_mask.shape = [2, 2] ∧
    (⟨⟨[2, 2], [1, 2, 3, 4]⟩, ⟨[2, 2], [1, 1, 2, 2]⟩, ⟨[2, 2], [1, 1, 2, 2]⟩, ⟨[2, 2], [0, 1, 0, 1]⟩, ⟨[2, 2], [false, true, false, true]⟩, ⟨[2, 2], [none, none, none, none]⟩, ⟨[2, 2], [0, 0, 0, 0]⟩, ⟨[2, 2], [0, 1, 0, 1]⟩, ⟨[2, 2], [false, false, false, false]⟩⟩ : TensorDict).logprobs.shape = [2, 2] ∧
    (⟨⟨[2, 2], [1, 2, 3, 4]⟩, ⟨[2, 2], [1, 1, 2, 2]⟩, ⟨[2, 2], [1, 1, 2, 2]⟩, ⟨[2, 2], [0, 1, 0, 1]⟩, ⟨[2, 2], [false, true, false, true]⟩, ⟨[2, 2], [none, none, none, none]⟩, ⟨[2, 2], [0, 0, 0, 0]⟩, ⟨[2, 2], [0, 1, 0, 1]⟩, ⟨[2, 2], [false, false, false, false]⟩⟩ : TensorDict).advantages.shape = [2, 2] ∧
    (⟨⟨[2, 2], [1, 2, 3, 4]⟩, ⟨[2, 2], [1, 1, 2, 2]⟩, ⟨[2, 2], [1, 1, 2, 2]⟩, ⟨[2, 2], [0, 1, 0, 1]⟩, ⟨[2, 2], [false, true, false, true]⟩, ⟨[2, 2], [none, none, none, none]⟩, ⟨[2, 2], [0, 0, 0, 0]⟩, ⟨[2, 2], [0, 1, 0, 1]⟩, ⟨[2, 2], [false, false, false, false]⟩⟩ : TensorDict).weights.shape = [2, 2] ∧
    (⟨⟨[2, 2], [1, 2, 3, 4]⟩, ⟨[2, 2], [1, 1, 2, 2]⟩, ⟨[2, 2], [1, 1, 2, 2]⟩, ⟨[2, 2], [0, 1, 0, 1]⟩, ⟨[2, 2], [false, true, false, true]⟩, ⟨[2, 2], [none, none, none, none]⟩, ⟨[2, 2], [0, 0, 0, 0]⟩, ⟨[2, 2], [0, 1, 0, 1]⟩, ⟨[2, 2], [false, false, false, false]⟩⟩ : TensorDict).deferred.shape = [2, 2] ∧
    (⟨⟨[2, 2], [1, 2, 3, 4]⟩, ⟨[2, 2], [1, 1, 2, 2]⟩, ⟨[2, 2], [1, 1, 2, 2]⟩, ⟨[2, 2], [0, 1, 0, 1]⟩, ⟨[2, 2], [false, true, false, true]⟩, ⟨[2, 2], [none, none, none, none]⟩, ⟨[2, 2], [0, 0, 0, 0]⟩, ⟨[2, 2], [0, 1, 0, 1]⟩, ⟨[2, 2], [false, false, false, false]⟩⟩ : TensorDict).tokens.data.length = 2 * 2 ∧
    (⟨⟨[2, 2], [1, 2, 3, 4]⟩, ⟨[2, 2], [1, 1, 2, 2]⟩, ⟨[2, 2], [1, 1, 2, 2]⟩, ⟨[2, 2], [0, 1, 0, 1]⟩, ⟨[2, 2], [false, true, false, true]⟩, ⟨[2, 2], [none, none, none, none]⟩, ⟨[2, 2], [0, 0, 0, 0]⟩, ⟨[2, 2], [0, 1, 0, 1]⟩, ⟨[2, 2], [false, false, false, false]⟩⟩ : TensorDict).group_ids.data.length = 2 * 2 ∧
    (⟨⟨[2, 2], [1, 2, 3, 4]⟩, ⟨[2, 2], [1, 1, 2, 2]⟩, ⟨[2, 2], [1, 1, 2, 2]⟩, ⟨[2, 2], [0, 1, 0, 1]⟩, ⟨[2, 2], [false, true, false, true]⟩, ⟨[2, 2], [none, none, none, none]⟩, ⟨[2, 2], [0, 0, 0, 0]⟩, ⟨[2, 2], [0, 1, 0, 1]⟩, ⟨[2, 2], [false, false, false, false]⟩⟩ : TensorDict).parent_ids.data.length = 2 * 2 ∧
    (⟨⟨[2, 2], [1, 2, 3, 4]⟩, ⟨[2, 2], [1, 1, 2, 2]⟩, ⟨[2, 2], [1, 1, 2, 2]⟩, ⟨[2, 2], [0, 1, 0, 1]⟩, ⟨[2, 2], [false, true, false, true]⟩, ⟨[2, 2], [none, none, none, none]⟩, ⟨[2, 2], [0, 0, 0, 0]⟩, ⟨[2, 2], [0, 1, 0, 1]⟩, ⟨[2, 2], [false, false, false, false]⟩⟩ : TensorDict).input_pos.data.length = 2 * 2 ∧
    (⟨⟨[2, 2], [1, 2, 3, 4]⟩, ⟨[2, 2], [1, 1, 2, 2]⟩, ⟨[2, 2], [1, 1, 2, 2]⟩, ⟨[2, 2], [0, 1, 0, 1]⟩, ⟨[2, 2], [false, true, false, true]⟩, ⟨[2, 2], [none, none, none, none]⟩, ⟨[2, 2], [0, 0, 0, 0]⟩, ⟨[2, 2], [0, 1, 0, 1]⟩, ⟨[2, 2], [false, false, false, false]⟩⟩ : TensorDict).assistant_mask.data.length = 2 * 2 ∧
    (⟨⟨[2, 2], [1, 2, 3, 4]⟩, ⟨[2, 2], [1, 1, 2, 2]⟩, ⟨[2, 2], [1, 1, 2, 2]⟩, ⟨[2, 2], [0, 1, 0, 1]⟩, ⟨[2, 2], [false, true, false, true]⟩, ⟨[2, 2], [none, none, none, none]⟩, ⟨[2, 2], [0, 0, 0, 0]⟩, ⟨[2, 2], [0, 1, 0, 1]⟩, ⟨[2, 2], [false, false, false, false]⟩⟩ : TensorDict).logprobs.data.length = 2 * 2 ∧
    (⟨⟨[2, 2], [1, 2, 3, 4]⟩, ⟨[2, 2], [1, 1, 2, 2]⟩, ⟨[2, 2], [1, 1, 2, 2]⟩, ⟨[2, 2], [0, 1, 0, 1]⟩, ⟨[2, 2], [false, true, false, true]⟩, ⟨[2, 2], [none, none, none, none]⟩, ⟨[2, 2], [0, 0, 0, 0]⟩, ⟨[2, 2], [0, 1, 0, 1]⟩, ⟨[2, 2], [false, false, false, false]⟩⟩ : TensorDict).advantages.data.length = 2 * 2 ∧
    (⟨⟨[2, 2], [1, 2, 3, 4]⟩, ⟨[2, 2], [1, 1, 2, 2]⟩, ⟨[2, 2], [1, 1, 2, 2]⟩, ⟨[2, 2], [0, 1, 0, 1]⟩, ⟨[2, 2], [false, true, false, true]⟩, ⟨[2, 2], [none, none, none, none]⟩, ⟨[2, 2], [0, 0, 0, 0]⟩, ⟨[2, 2], [0, 1, 0, 1]⟩, ⟨[2, 2], [false, false, false, false]⟩⟩ : TensorDict).weights.data.length = 2 * 2 ∧
    (⟨⟨[2, 2], [1, 2, 3, 4]⟩, ⟨[2, 2], [1, 1, 2, 2]⟩, ⟨[2, 2], [1, 1, 2, 2]⟩, ⟨[2, 2], [0, 1, 0, 1]⟩, ⟨[2, 2], [false, true, false, true]⟩, ⟨[2, 2], [none, none, none, none]⟩, ⟨[2, 2], [0, 0, 0, 0]⟩, ⟨[2, 2], [0, 1, 0, 1]⟩, ⟨[2, 2], [false, false, false, false]⟩⟩ : TensorDict).deferred.data.length = 2 * 2 ∧
    (2 : Nat) ≠ 1 ∧ (2 : Nat) ≠ 1 ∧
    packed_tensors_from_dir
        (packed_tensors_to_dir (⟨⟨[2, 2], [1, 2, 3, 4]⟩, ⟨[2, 2], [1, 1, 2, 2]⟩, ⟨[2, 2], [1, 1, 2, 2]⟩, ⟨[2, 2], [0, 1, 0, 1]⟩, ⟨[2, 2], [false, true, false, true]⟩, ⟨[2, 2], [none, none, none, none]⟩, ⟨[2, 2], [0, 0, 0, 0]⟩, ⟨[2, 2], [0, 1, 0, 1]⟩, ⟨[2, 2], [false, false, false, false]⟩⟩ : TensorDict)).1
        (packed_tensors_to_dir (⟨⟨[2, 2], [1, 2, 3, 4]⟩, ⟨[2, 2], [1, 1, 2, 2]⟩, ⟨[2, 2], [1, 1, 2, 2]⟩, ⟨[2, 2], [0, 1, 0, 1]⟩, ⟨[2, 2], [false, true, false, true]⟩, ⟨[2, 2], [none, none, none, none]⟩, ⟨[2, 2], [0, 0, 0, 0]⟩, ⟨[2, 2], [0, 1, 0, 1]⟩, ⟨[2, 2], [false, false, false, false]⟩⟩ : TensorDict)).2
      = (⟨⟨[2, 2], [1, 2, 3, 4]⟩, ⟨[2, 2], [1, 1, 2, 2]⟩, ⟨[2, 2], [1, 1, 2, 2]⟩, ⟨[2, 2], [0, 1, 0, 1]⟩, ⟨[2, 2], [false, true, false, true]⟩, ⟨[2, 2], [none, none, none, none]⟩, ⟨[2, 2], [0, 0, 0, 0]⟩, ⟨[2, 2], [0, 1, 0, 1]⟩, ⟨[2, 2], [false, false, false, false]⟩⟩ : TensorDict) :=
  ⟨rfl, rfl, rfl, rfl, rfl, rfl, rfl, rfl, rfl,
    by decide, by decide, by decide, by decide, by decide, by decide,
    by decide, by decide, by decide,
    by decide, by decide,
    c9_roundtrip (⟨⟨[2, 2], [1, 2, 3, 4]⟩, ⟨[2, 2], [1, 1, 2, 2]⟩, ⟨[2, 2], [1, 1, 2, 2]⟩, ⟨[2, 2], [0, 1, 0, 1]⟩, ⟨[2, 2], [false, true, false, true]⟩, ⟨[2, 2], [none, none, none, none]⟩, ⟨[2, 2], [0, 0, 0, 0]⟩, ⟨[2, 2], [0, 1, 0, 1]⟩, ⟨[2, 2], [false, false, false, false]⟩⟩ : TensorDict) 2 2
      rfl rfl rfl rfl rfl rfl rfl rfl rfl
      (by decide) (by decide) (by decide) (by decide) (by decide) (by decide)
      (by decide) (by decide) (by decide)
      (by decide) (by decide)⟩

/-- Witness for C10 at a concrete input: the single log-probability record
carries the numeric value 0.0, and every stored logprob is NaN (`none`). -/
theorem c10_witness :
    (⟨0, 0, false, [1, 2], [0, 1], [0, 1], some [⟨"a", some 0⟩], 5, 1⟩ : TokenizedResult).token_logprobs = some [⟨"a", some 0⟩] ∧
    (∀ lp ∈ ([⟨"a", some 0⟩] : List TokenLogprob), lp.logprob = some 0) ∧
    packed_tensors_from_tokenized_results
        [⟨0, 0, false, [1, 2], [0, 1], [0, 1], some [⟨"a", some 0⟩], 5, 1⟩] 4 (-100) true (fun _ => 9)
      = Except.ok (finalizeRows [⟨[1, 2], [5, 9], [5, 5], [0, 1], [0, 1], [none, none], [0, 0], [1 / ((1 : Int) : ℚ), 1 / ((1 : Int) : ℚ)], [false, false]⟩] 4 (-100)) ∧
    ∀ lpRow ∈ (finalizeRows [⟨[1, 2], [5, 9], [5, 5], [0, 1], [0, 1], [none, none], [0, 0], [1 / ((1 : Int) : ℚ), 1 / ((1 : Int) : ℚ)], [false, false]⟩] 4 (-100)).logprobs, ∀ x ∈ lpRow, x = none :=
  ⟨rfl, by decide, rfl,
    c10_zero_logprob_becomes_nan
      ⟨0, 0, false, [1, 2], [0, 1], [0, 1], some [⟨"a", some 0⟩], 5, 1⟩ 4 (-100) true (fun _ => 9)
      (finalizeRows [⟨[1, 2], [5, 9], [5, 5], [0, 1], [0, 1], [none, none], [0, 0], [1 / ((1 : Int) : ℚ), 1 / ((1 : Int) : ℚ)], [false, false]⟩] 4 (-100)) [⟨"a", some 0⟩] rfl (by decide) rfl⟩
